import Mathlib

/-!
Verification of the driver-app trip metering core.

This file gives a shallow embedding in Lean 4 of the meter state machine
(`meterReducer` from `src/hooks/useDriverFare.ts`), the fare calculator
(`computeFareBreakdown` / `applyMeterRounding` from the fare utility module),
the offline outbox drain (`flushOutbox` from `src/utils/offlineOutbox.ts`),
and the hours-of-service queue drain (`processPendingQueue`).

Modelling conventions:
* JavaScript numbers are embedded as exact rationals (`ℚ`); the
  `Number.isFinite` guards in the source are always true on `ℚ` and are
  noted where they occur.
* The haversine `distanceBetween` is transcendental, so the reducer is
  parameterised over an arbitrary distance function `dist`; every theorem
  about the reducer holds for all `dist` (or instantiates it concretely,
  using only properties haversine has, e.g. distance zero between
  identical coordinates).
* `Date.now()` reads are modelled by an explicit `now` parameter.
* Fallible network calls are modelled by explicit result values; the list
  of network calls actually issued is returned as a trace.
-/

namespace DriverApp

/-- `Coordinates` from `src/utils/geo`: `{latitude, longitude}`. -/
structure Coord where
  latitude : ℚ
  longitude : ℚ
deriving DecidableEq, Repr

/-- The part of an expo `Location.LocationObject` the reducer reads:
`coords.latitude/longitude`, `coords.speed` (may be absent/null) and the
optional `timestamp` (the source defaults it to `Date.now()`). -/
structure LocationObject where
  coords : Coord
  speed : Option ℚ
  timestamp : Option ℚ
deriving DecidableEq, Repr

/-- `MeterStatus = 'idle' | 'running' | 'paused' | 'completed'`. -/
inductive MeterStatus where
  | idle
  | running
  | paused
  | completed
deriving DecidableEq, Repr

/-- `MeterConfig` from `src/hooks/useDriverFare.ts`. -/
structure MeterConfig where
  farePerMile : ℚ
  waitTimePerMinute : ℚ
  baseFare : Option ℚ
  minimumFare : Option ℚ
  waitTriggerSpeedMph : Option ℚ
  idleGracePeriodSeconds : Option ℚ
  surgeEnabled : Option Bool
  surgeMultiplier : Option ℚ
deriving DecidableEq, Repr

/-- `MeterState` from `src/hooks/useDriverFare.ts`. -/
structure MeterState where
  status : MeterStatus
  startedAt : Option ℚ
  elapsedSeconds : ℚ
  distanceMeters : ℚ
  waitSeconds : ℚ
  lastLocation : Option LocationObject
  lastTimestamp : Option ℚ
  idleAnchor : Option ℚ
  config : Option MeterConfig
  points : List Coord
  error : Option String
deriving DecidableEq, Repr

/-- `MeterAction` from `src/hooks/useDriverFare.ts`. -/
inductive MeterAction where
  | START (timestamp : ℚ) (location : Option LocationObject) (config : MeterConfig)
  | LOCATION_UPDATE (location : LocationObject)
  | PAUSE
  | RESUME (timestamp : ℚ)
  | STOP (timestamp : ℚ)
  | RESET
  | HYDRATE (payload : MeterState)
  | SET_ERROR (payload : Option String)
deriving DecidableEq

/-- `initialState` from `src/hooks/useDriverFare.ts`. -/
def initialState : MeterState :=
  { status := .idle
    startedAt := none
    elapsedSeconds := 0
    distanceMeters := 0
    waitSeconds := 0
    lastLocation := none
    lastTimestamp := none
    idleAnchor := none
    config := none
    points := []
    error := none }

/-- `mphToMetersPerSecond` from `src/utils/geo`: `mph * 0.44704`. -/
def mphToMetersPerSecond (mph : ℚ) : ℚ := mph * (44704 / 100000)

/-- `metersToMiles` from `src/utils/geo`: `meters / 1609.344`. -/
def metersToMiles (meters : ℚ) : ℚ := meters / (1609344 / 1000)

/-- `secondsToMinutes` from `src/utils/geo`: `seconds / 60`. -/
def secondsToMinutes (seconds : ℚ) : ℚ := seconds / 60

/-- `MAX_POINTS = 500` from the reducer. -/
def MAX_POINTS : ℕ := 500

/-- The wait-speed threshold computed in `LOCATION_UPDATE`:
`state.config?.waitTriggerSpeedMph ? mph(v) : mph(3)`.  The JS conditional
tests truthiness, so a configured value of `0` falls back to 3 mph. -/
def waitThresholdOf (config : Option MeterConfig) : ℚ :=
  match config with
  | some c =>
    match c.waitTriggerSpeedMph with
    | some v => if v ≠ 0 then mphToMetersPerSecond v else mphToMetersPerSecond 3
    | none => mphToMetersPerSecond 3
  | none => mphToMetersPerSecond 3

/-- `state.config?.idleGracePeriodSeconds ?? 45` (nullish coalescing). -/
def graceSecondsOf (config : Option MeterConfig) : ℚ :=
  match config with
  | some c => c.idleGracePeriodSeconds.getD 45
  | none => 45

/-- The idle/wait block of `LOCATION_UPDATE`: while at or below the wait
threshold, set the idle anchor if absent, else bill the increment of
`max 0 (idleDuration − graceSeconds)` since the previous sample; above
the threshold, clear the anchor.  Returns the new
`(waitSeconds, idleAnchor)` pair. -/
def waitAndAnchorUpd (waitSeconds : ℚ) (idleAnchor : Option ℚ) (belowThreshold : Bool)
    (lastTimestamp timestamp graceSeconds : ℚ) : ℚ × Option ℚ :=
  if belowThreshold then
    match idleAnchor with
    | none => (waitSeconds, some timestamp)
    | some idleAnchorValue =>
      let prevIdleDuration := max 0 ((lastTimestamp - idleAnchorValue) / 1000)
      let currentIdleDuration := max 0 ((timestamp - idleAnchorValue) / 1000)
      let effectivePrev := max 0 (prevIdleDuration - graceSeconds)
      let effectiveCurrent := max 0 (currentIdleDuration - graceSeconds)
      let additionalWait := max 0 (effectiveCurrent - effectivePrev)
      (waitSeconds + additionalWait, some idleAnchorValue)
  else (waitSeconds, none)

/-- The point-thinning and capping block of `LOCATION_UPDATE`
(`shouldStorePoint` / `newPoints` / `cappedPoints`): append the new
coordinate only when it is more than 5 m from the last stored point (or
the list is empty), then cap to `MAX_POINTS` by dropping the oldest. -/
def thinAndCap (dist : Coord → Coord → ℚ) (points : List Coord) (c : Coord) : List Coord :=
  let shouldStorePoint : Bool :=
    match points.getLast? with
    | none => true
    | some p => decide (dist p c > 5)
  let newPoints := if shouldStorePoint then points ++ [c] else points
  if newPoints.length > MAX_POINTS then newPoints.drop (newPoints.length - MAX_POINTS)
  else newPoints

/-- The `LOCATION_UPDATE` branch of `meterReducer`
(`src/hooks/useDriverFare.ts`).  `dist` stands for the haversine
`distanceBetween`; `now` stands for `Date.now()`.  All `Number.isFinite`
tests of the source are identically true on `ℚ`. -/
def locationUpdate (dist : Coord → Coord → ℚ) (now : ℚ)
    (state : MeterState) (location : LocationObject) : MeterState :=
  if state.status = .running then
    let timestamp := location.timestamp.getD now
    let lastTimestamp := state.lastTimestamp.getD timestamp
    let deltaSeconds := max 0 ((timestamp - lastTimestamp) / 1000)
    let distanceMeters :=
      match state.lastLocation with
      | some lastLocation =>
        -- spike guard: MAX_REASONABLE_DELTA_METERS = 2000
        let rawDelta := dist lastLocation.coords location.coords
        let deltaDistance := if rawDelta > 2000 ∧ deltaSeconds < 10 then 0 else rawDelta
        if deltaDistance > 0 then state.distanceMeters + deltaDistance
        else state.distanceMeters
      | none => state.distanceMeters
    let prevCoords :=
      match state.lastLocation with
      | some l => l.coords
      | none => location.coords
    let derivedSpeed :=
      if deltaSeconds > 0 then dist prevCoords location.coords / deltaSeconds else 0
    let effectiveSpeed :=
      match location.speed with
      | some s => if s ≥ 0 then s else derivedSpeed
      | none => derivedSpeed
    let waitThreshold := waitThresholdOf state.config
    let graceSeconds := graceSecondsOf state.config
    let belowThreshold := effectiveSpeed ≤ waitThreshold
    let waitAndAnchor :=
      waitAndAnchorUpd state.waitSeconds state.idleAnchor (decide belowThreshold)
        lastTimestamp timestamp graceSeconds
    let cappedPoints := thinAndCap dist state.points location.coords
    { state with
        lastLocation := some location
        lastTimestamp := some timestamp
        elapsedSeconds := state.elapsedSeconds + deltaSeconds
        distanceMeters := distanceMeters
        waitSeconds := waitAndAnchor.1
        idleAnchor := waitAndAnchor.2
        points := cappedPoints }
  else state

/-- `meterReducer` from `src/hooks/useDriverFare.ts`, with the haversine
function and `Date.now()` passed explicitly. -/
def meterReducer (dist : Coord → Coord → ℚ) (now : ℚ)
    (state : MeterState) (action : MeterAction) : MeterState :=
  match action with
  | .HYDRATE payload =>
    let cappedPoints :=
      if payload.points.length > MAX_POINTS then
        payload.points.drop (payload.points.length - MAX_POINTS)
      else payload.points
    { payload with points := cappedPoints }
  | .START timestamp location config =>
    let initialPoint :=
      match location with
      | some l =>
        -- JS truthiness on the raw latitude/longitude values
        if l.coords.latitude ≠ 0 ∧ l.coords.longitude ≠ 0 then [l.coords] else []
      | none => []
    { status := .running
      startedAt := some timestamp
      elapsedSeconds := 0
      distanceMeters := 0
      waitSeconds := 0
      lastLocation := location
      lastTimestamp := some timestamp
      idleAnchor := none
      config := some config
      points := initialPoint
      error := none }
  | .LOCATION_UPDATE location => locationUpdate dist now state location
  | .PAUSE =>
    if state.status = .running then
      { state with status := .paused, lastTimestamp := some now, idleAnchor := none }
    else state
  | .RESUME timestamp =>
    if state.status = .paused then
      { state with status := .running, lastTimestamp := some timestamp }
    else state
  | .STOP timestamp =>
    if state.status = .idle ∨ state.status = .completed then state
    else
      let startedAt := state.startedAt.getD timestamp
      let totalSeconds := max 0 ((timestamp - startedAt) / 1000)
      { state with
          status := .completed
          elapsedSeconds := totalSeconds
          lastTimestamp := some timestamp
          idleAnchor := none }
  | .RESET => initialState
  | .SET_ERROR payload => { state with error := payload }

/-- Fold the reducer over a sequence of events, each carrying the value of
`Date.now()` at dispatch time. -/
def runMeter (dist : Coord → Coord → ℚ) (state : MeterState)
    (events : List (ℚ × MeterAction)) : MeterState :=
  events.foldl (fun st e => meterReducer dist e.1 st e.2) state

/-- The wall-clock time an event is driven by: the sample timestamp for a
location update (defaulted to `Date.now()`), the explicit timestamp of
START/RESUME/STOP, and the dispatch-time clock otherwise. -/
def evTime (e : ℚ × MeterAction) : ℚ :=
  match e.2 with
  | .START t _ _ => t
  | .LOCATION_UPDATE l => l.timestamp.getD e.1
  | .PAUSE => e.1
  | .RESUME t => t
  | .STOP t => t
  | .RESET => e.1
  | .HYDRATE _ => e.1
  | .SET_ERROR _ => e.1

/-- The six driver-visible meter events named by the spec
(START, LOCATION_UPDATE, PAUSE, RESUME, STOP, RESET). -/
def CoreAction : MeterAction → Prop
  | .START _ _ _ => True
  | .LOCATION_UPDATE _ => True
  | .PAUSE => True
  | .RESUME _ => True
  | .STOP _ => True
  | .RESET => True
  | .HYDRATE _ => False
  | .SET_ERROR _ => False

/-! ## Fare calculator (`computeFareBreakdown`, `applyMeterRounding`) -/

/-- `{name, amount}` other-fee record. -/
structure OtherFee where
  name : String
  amount : ℚ
deriving DecidableEq, Repr

/-- The fields of `FareConfig` (from `src/api/driverApp.ts`) that the fare
calculator reads. -/
structure FareConfig where
  farePerMile : ℚ
  extraPass : Option ℚ
  waitTimePerMinute : ℚ
  baseFare : Option ℚ
  minimumFare : Option ℚ
  waitTriggerSpeedMph : Option ℚ
  idleGracePeriodSeconds : Option ℚ
  meterRoundingMode : Option String
  surgeEnabled : Option Bool
  surgeMultiplier : Option ℚ
deriving DecidableEq, Repr

/-- `FareBreakdown` from the fare utility module. -/
structure FareBreakdown where
  mode : String
  baseFare : ℚ
  distanceFare : ℚ
  waitFare : ℚ
  surgeMultiplier : ℚ
  minimumApplied : Bool
  extraPassengerFare : ℚ
  otherFeesTotal : ℚ
  otherFees : List OtherFee
  subtotalBeforeExtras : ℚ
  subtotalWithExtras : ℚ
  roundingMode : Option String
  roundingAdjustment : ℚ
  total : ℚ
deriving DecidableEq, Repr

/-- `safeAmount(value, fallback = 0)` on a possibly-absent number:
`Number(undefined)` is `NaN` (not finite) and a negative value is also
replaced by the fallback. -/
def safeAmount (value : Option ℚ) (fallback : ℚ) : ℚ :=
  match value with
  | none => fallback
  | some parsed => if parsed < 0 then fallback else parsed

/-- `clampPassengers`: floor, and clamp to `≥ 1`. -/
def clampPassengers (count : ℚ) : ℚ :=
  if count < 1 then 1 else ((⌊count⌋ : ℤ) : ℚ)

/-- `Math.round` for the nonnegative values produced inside
`applyMeterRounding`: `⌊x + 1/2⌋`. -/
def jsRound (x : ℚ) : ℚ := ((⌊x + 1 / 2⌋ : ℤ) : ℚ)

/-- The `steps` lookup table inside `applyMeterRounding`. -/
def roundingStepFor (mode : String) : Option ℚ :=
  if mode = "nearest_0_1" then some (1 / 10)
  else if mode = "nearest_0_25" then some (1 / 4)
  else if mode = "nearest_0_5" then some (1 / 2)
  else if mode = "nearest_1" then some 1
  else if mode = "nearest_0.1" then some (1 / 10)
  else if mode = "nearest_0.25" then some (1 / 4)
  else if mode = "nearest_0.5" then some (1 / 2)
  else none

/-- `applyMeterRounding(value, mode?)` from the fare utility module.  A
missing, empty (falsy) or `'none'` mode clamps to `≥ 0`; a known mode
rounds the clamped value to the nearest multiple of the step; an unknown
mode returns the clamped value. -/
def applyMeterRounding (value : ℚ) (mode : Option String) : ℚ :=
  match mode with
  | none => max value 0
  | some m =>
    if m = "" ∨ m = "none" then max value 0
    else
      let safeValue := max value 0
      match roundingStepFor m with
      | none => safeValue
      | some step => jsRound (safeValue / step) * step

/-- `computeFareBreakdown` from the fare utility module. -/
def computeFareBreakdown (config : FareConfig) (distanceMiles waitMinutes : ℚ)
    (passengerCount : ℚ) (otherFees : List OtherFee)
    (flatRateAmount : Option ℚ) : FareBreakdown :=
  let safeOtherFees := otherFees
  let otherFeesTotal := safeOtherFees.foldl (fun sum fee => sum + safeAmount (some fee.amount) 0) 0
  let passengerTotal := clampPassengers passengerCount
  let additionalPassengers := max (passengerTotal - 1) 0
  let extraPassengerFare := additionalPassengers * safeAmount config.extraPass 0
  let roundingMode := config.meterRoundingMode
  let surgeMultiplier :=
    if config.surgeEnabled.getD false = true ∧ safeAmount config.surgeMultiplier 0 > 0 then
      max (safeAmount config.surgeMultiplier 0) 1
    else 1
  match flatRateAmount with
  | some flat =>
    -- `Number.isFinite(flatRateAmount)` branch: flat-rate pricing
    let baseFare := safeAmount (some flat) 0
    let subtotalBeforeExtras := baseFare
    let subtotalWithExtras := subtotalBeforeExtras + extraPassengerFare + otherFeesTotal
    let total := applyMeterRounding subtotalWithExtras roundingMode
    { mode := "flat"
      baseFare := baseFare
      distanceFare := 0
      waitFare := 0
      surgeMultiplier := 1
      minimumApplied := false
      extraPassengerFare := extraPassengerFare
      otherFeesTotal := otherFeesTotal
      otherFees := safeOtherFees
      subtotalBeforeExtras := subtotalBeforeExtras
      subtotalWithExtras := subtotalWithExtras
      roundingMode := roundingMode
      roundingAdjustment := total - subtotalWithExtras
      total := total }
  | none =>
    let baseFare := safeAmount config.baseFare 0
    let perMile := safeAmount (some config.farePerMile) 0
    let waitRate := safeAmount (some config.waitTimePerMinute) 0
    let minimumFare := safeAmount config.minimumFare 0
    let distanceFare := max distanceMiles 0 * perMile
    let waitFare := max waitMinutes 0 * waitRate
    let rawSubtotal := baseFare + distanceFare + waitFare
    let minimumApplied := minimumFare > 0 ∧ rawSubtotal < minimumFare
    let subtotalBeforeExtras := if minimumApplied then minimumFare else rawSubtotal
    let surgedSubtotal := subtotalBeforeExtras * surgeMultiplier
    let subtotalWithExtras := surgedSubtotal + extraPassengerFare + otherFeesTotal
    let total := applyMeterRounding subtotalWithExtras roundingMode
    { mode := "meter"
      baseFare := baseFare
      distanceFare := distanceFare
      waitFare := waitFare
      surgeMultiplier := surgeMultiplier
      minimumApplied := decide minimumApplied
      extraPassengerFare := extraPassengerFare
      otherFeesTotal := otherFeesTotal
      otherFees := safeOtherFees
      subtotalBeforeExtras := surgedSubtotal
      subtotalWithExtras := subtotalWithExtras
      roundingMode := roundingMode
      roundingAdjustment := total - subtotalWithExtras
      total := total }

/-- The value computed by the hook's `totals` memo
(`src/hooks/useDriverFare.ts`, `useFlagdownMeter`). -/
structure MeterTotals where
  distanceMiles : ℚ
  waitMinutes : ℚ
  fare : ℚ
  elapsedSeconds : ℚ
deriving DecidableEq, Repr

/-- The `totals` memo of `useFlagdownMeter`: the live fare shown while the
meter runs.  JS truthiness: `config.minimumFare` is skipped when `0`, and
the surge factor applies only when `surgeEnabled` is truthy and
`surgeMultiplier` is truthy and `> 1`. -/
def meterTotals (state : MeterState) : MeterTotals :=
  let distanceMiles := metersToMiles state.distanceMeters
  let waitMinutes := secondsToMinutes state.waitSeconds
  match state.config with
  | none =>
    { distanceMiles := distanceMiles
      waitMinutes := waitMinutes
      fare := 0
      elapsedSeconds := state.elapsedSeconds }
  | some config =>
    let baseFare := config.baseFare.getD 0
    let distanceFare := distanceMiles * config.farePerMile
    let waitFare := waitMinutes * config.waitTimePerMinute
    let calculatedFare := baseFare + distanceFare + waitFare
    -- `if (config.minimumFare)`: truthy iff present and nonzero; an absent
    -- value and a present 0 behave alike, so both read as `getD 0 ≠ 0`.
    let withMinimum :=
      if config.minimumFare.getD 0 ≠ 0 then max (config.minimumFare.getD 0) calculatedFare
      else calculatedFare
    -- `config.surgeEnabled && config.surgeMultiplier && config.surgeMultiplier > 1`:
    -- an absent multiplier reads as 0, which fails both truthiness and `> 1`.
    let withSurge :=
      if config.surgeEnabled.getD false = true ∧ config.surgeMultiplier.getD 0 ≠ 0
          ∧ config.surgeMultiplier.getD 0 > 1 then
        withMinimum * config.surgeMultiplier.getD 0
      else withMinimum
    { distanceMiles := distanceMiles
      waitMinutes := waitMinutes
      fare := withSurge
      elapsedSeconds := state.elapsedSeconds }

/-- View a `MeterConfig` as the `FareConfig` carrying the same fare
parameters, with no `extraPass` and no `meterRoundingMode` (the fields a
`MeterConfig` does not have). -/
def toFareConfig (m : MeterConfig) : FareConfig :=
  { farePerMile := m.farePerMile
    extraPass := none
    waitTimePerMinute := m.waitTimePerMinute
    baseFare := m.baseFare
    minimumFare := m.minimumFare
    waitTriggerSpeedMph := m.waitTriggerSpeedMph
    idleGracePeriodSeconds := m.idleGracePeriodSeconds
    meterRoundingMode := none
    surgeEnabled := m.surgeEnabled
    surgeMultiplier := m.surgeMultiplier }

/-! ## Offline outbox (`src/utils/offlineOutbox.ts`) -/

/-- Opaque request payload. -/
structure Payload where
  data : String
deriving DecidableEq, Repr

/-- `OutboxItem` from `src/utils/offlineOutbox.ts` (discriminated union on
`type`). -/
inductive OutboxItem where
  | updateBookingStatus (id : String) (bookingId : String) (payload : Payload) (createdAt : ℚ)
  | flagdownAndComplete (id : String) (flagdownPayload : Payload)
      (completionPayload : Payload) (createdAt : ℚ)
deriving DecidableEq, Repr

/-- A network request issued while draining the outbox. -/
inductive NetworkCall where
  | updateBookingStatus (bookingId : String) (payload : Payload)
  | createFlagdown (payload : Payload)
deriving DecidableEq, Repr

/-- Result of one API call: success with a value, or a thrown error whose
`status` field is absent for transport failures and carries the HTTP
status for authoritative rejections (`ApiError` in `src/api/driverApp.ts`). -/
inductive CallResult (α : Type) where
  | ok (value : α)
  | error (status : Option ℕ)
deriving DecidableEq, Repr

/-- The classification made by `flushOutbox`'s catch block:
`!err || !err.status` — the status is missing (or falsy). -/
def isNetworkStatus (status : Option ℕ) : Bool :=
  status.getD 0 == 0

/-- Process one outbox item as `flushOutbox` does, returning the thrown
error status (`none` for success) together with the network calls issued.
`createFlagdown`'s success value models `resp?.booking?._id`. -/
def processItem (createFlagdown : String → Payload → CallResult (Option String))
    (updateBookingStatus : String → String → Payload → CallResult Unit)
    (token : String) : OutboxItem → Option (Option ℕ) × List NetworkCall
  | .updateBookingStatus _ bookingId payload _ =>
    match updateBookingStatus token bookingId payload with
    | .ok _ => (none, [.updateBookingStatus bookingId payload])
    | .error st => (some st, [.updateBookingStatus bookingId payload])
  | .flagdownAndComplete _ flagdownPayload completionPayload _ =>
    match createFlagdown token flagdownPayload with
    | .error st => (some st, [.createFlagdown flagdownPayload])
    | .ok none => (none, [.createFlagdown flagdownPayload])
    | .ok (some bookingId) =>
      match updateBookingStatus token bookingId completionPayload with
      | .ok _ => (none, [.createFlagdown flagdownPayload,
          .updateBookingStatus bookingId completionPayload])
      | .error st => (some st, [.createFlagdown flagdownPayload,
          .updateBookingStatus bookingId completionPayload])

/-- The `for` loop of `flushOutbox`: on success the item is not retained;
on a network-layer failure (no status) the item and every later item are
retained in order and the loop breaks; on an authoritative failure the
item is dropped and the loop continues.  (`items.indexOf(item)` finds the
current position, since parsed outbox items are distinct objects.)
Returns the retained items and the trace of network calls. -/
def flushLoop (createFlagdown : String → Payload → CallResult (Option String))
    (updateBookingStatus : String → String → Payload → CallResult Unit)
    (token : String) : List OutboxItem → List OutboxItem × List NetworkCall
  | [] => ([], [])
  | item :: rest =>
    let r := processItem createFlagdown updateBookingStatus token item
    match r.1 with
    | none =>
      let next := flushLoop createFlagdown updateBookingStatus token rest
      (next.1, r.2 ++ next.2)
    | some st =>
      if isNetworkStatus st then (item :: rest, r.2)
      else
        let next := flushLoop createFlagdown updateBookingStatus token rest
        (next.1, r.2 ++ next.2)

/-- `flushOutbox(token)`: no-op without a token or with an empty outbox;
otherwise drains with `flushLoop` and persists the retained items (an
empty remainder clears the store).  The first component is the stored
outbox content after the drain. -/
def flushOutbox (createFlagdown : String → Payload → CallResult (Option String))
    (updateBookingStatus : String → String → Payload → CallResult Unit)
    (token : Option String) (items : List OutboxItem) :
    List OutboxItem × List NetworkCall :=
  match token with
  | none => (items, [])
  | some tok =>
    if items = [] then (items, [])
    else flushLoop createFlagdown updateBookingStatus tok items

/-! ## Hours-of-service queue (`processPendingQueue`) -/

/-- `HosQueueEntry`: `lastAttemptAt` is stored as an ISO string in the
source; it is modelled by its epoch-milliseconds value. -/
structure HosQueueEntry where
  id : String
  date : String
  minutes : ℚ
  attempts : Option ℕ
  lastAttemptAt : Option ℚ
deriving DecidableEq, Repr

/-- `min(60*60*1000, Math.pow(2, attempts) * 1000)` — the backoff window
in milliseconds, capped at one hour. -/
def backoffWaitMs (attempts : ℕ) : ℚ :=
  min (60 * 60 * 1000) ((2 : ℚ) ^ attempts * 1000)

/-- The skip test of `processPendingQueue`: `attempts > 0`, a recorded
`lastAttemptAt`, and the backoff window not yet elapsed. -/
def shouldSkipHos (now : ℚ) (e : HosQueueEntry) : Bool :=
  decide (0 < e.attempts.getD 0) &&
    (match e.lastAttemptAt with
     | some last => decide (now - last < backoffWaitMs (e.attempts.getD 0))
     | none => false)

/-- `removeQueueEntry`: filter out the entry with the given id. -/
def removeQueueEntry (q : List HosQueueEntry) (i : String) : List HosQueueEntry :=
  q.filter (fun x => decide (x.id ≠ i))

/-- The failure path of `processPendingQueue`: find the entry by id in the
live queue, increment `attempts` and stamp `lastAttemptAt` with the
current time. -/
def markAttemptFailed (now : ℚ) : List HosQueueEntry → String → List HosQueueEntry
  | [], _ => []
  | e :: rest, i =>
    if e.id = i then
      { e with attempts := some (e.attempts.getD 0 + 1), lastAttemptAt := some now } :: rest
    else e :: markAttemptFailed now rest i

/-- The loop of `processPendingQueue`: iterate over the snapshot taken at
entry (`q.slice()`), threading the live stored queue; `ok` models whether
`appendHos` succeeds for an entry.  Returns the stored queue afterwards
and the ids actually attempted (in order). -/
def processQueueLoop (ok : HosQueueEntry → Bool) (now : ℚ) :
    List HosQueueEntry → List HosQueueEntry → List HosQueueEntry × List String
  | [], storage => (storage, [])
  | e :: rest, storage =>
    if shouldSkipHos now e then processQueueLoop ok now rest storage
    else if ok e then
      let next := processQueueLoop ok now rest (removeQueueEntry storage e.id)
      (next.1, e.id :: next.2)
    else
      let next := processQueueLoop ok now rest (markAttemptFailed now storage e.id)
      (next.1, e.id :: next.2)

/-- `processPendingQueue(token)` from the hours-of-service store: no-op
without a token or with an empty queue; otherwise runs the loop over a
snapshot of the queue. -/
def processPendingQueue (ok : HosQueueEntry → Bool) (now : ℚ)
    (token : Option String) (q : List HosQueueEntry) :
    List HosQueueEntry × List String :=
  match token with
  | none => (q, [])
  | some _ =>
    if q = [] then (q, [])
    else processQueueLoop ok now q q

/-! ## Arithmetic helpers -/

theorem max0_mono {x y : ℚ} (h : x ≤ y) : max 0 x ≤ max 0 y :=
  max_le_max le_rfl h

theorem max0_sub_max0_le (x y : ℚ) : max 0 x - max 0 y ≤ max 0 (x - y) := by
  rcases le_total x 0 with hx | hx
  · have h1 : max 0 x = 0 := max_eq_left hx
    have h2 : (0 : ℚ) ≤ max 0 y := le_max_left 0 y
    have h3 : (0 : ℚ) ≤ max 0 (x - y) := le_max_left 0 (x - y)
    linarith
  · have h1 : max 0 x = x := max_eq_right hx
    rcases le_total y 0 with hy | hy
    · have h2 : max 0 y = 0 := max_eq_left hy
      have h4 : (0 : ℚ) ≤ x - y := by linarith
      have h5 : max 0 (x - y) = x - y := max_eq_right h4
      linarith
    · have h2 : max 0 y = y := max_eq_right hy
      have h3 : x - y ≤ max 0 (x - y) := le_max_right _ _
      linarith

/-! ## Claim C2 — spike guard -/

/-- C2: when the meter is running, a location update whose distance from
the previous fix exceeds 2000 m while the time delta since the previous
sample is under 10 s leaves `distanceMeters` unchanged: the spike is
discarded entirely, not averaged. -/
theorem spike_guard_discards_large_delta
    (dist : Coord → Coord → ℚ) (now : ℚ) (state : MeterState)
    (location prev : LocationObject) (tl : ℚ)
    (hrun : state.status = .running)
    (hprev : state.lastLocation = some prev)
    (hts : state.lastTimestamp = some tl)
    (hbig : dist prev.coords location.coords > 2000)
    (hfast : (location.timestamp.getD now - tl) / 1000 < 10) :
    (meterReducer dist now state (.LOCATION_UPDATE location)).distanceMeters
      = state.distanceMeters := by
  have hds : max (0 : ℚ) ((location.timestamp.getD now - tl) / 1000) < 10 :=
    max_lt (by norm_num) hfast
  simp only [meterReducer, locationUpdate, hrun, if_true, hprev, hts, Option.getD_some]
  simp [hbig, hds]

theorem spike_guard_discards_large_delta_witness :
    (2500 : ℚ) > 2000 ∧
    (meterReducer (fun _ _ => (2500 : ℚ)) 0
        { initialState with
            status := .running
            startedAt := some 0
            lastLocation := some ⟨⟨0, 0⟩, some 0, some 0⟩
            lastTimestamp := some 0 }
        (.LOCATION_UPDATE ⟨⟨1, 1⟩, some 0, some 5000⟩)).distanceMeters
      = ({ initialState with
            status := .running
            startedAt := some 0
            lastLocation := some ⟨⟨0, 0⟩, some 0, some 0⟩
            lastTimestamp := some 0 } : MeterState).distanceMeters :=
  ⟨by norm_num,
    spike_guard_discards_large_delta (fun _ _ => (2500 : ℚ)) 0 _
      ⟨⟨1, 1⟩, some 0, some 5000⟩ ⟨⟨0, 0⟩, some 0, some 0⟩ 0
      rfl rfl rfl (by norm_num) (by norm_num)⟩

/-! ## Claim C7 — completed states -/

/-- The four meter actions that leave a completed state untouched. -/
def IsPassiveAction : MeterAction → Prop
  | .LOCATION_UPDATE _ => True
  | .PAUSE => True
  | .RESUME _ => True
  | .STOP _ => True
  | _ => False

/-- A sample completed state used as the concrete counterexample input. -/
def completedSample : MeterState :=
  { initialState with status := .completed }

/-- A trivial meter pricing configuration used in concrete inputs. -/
def meterCfgTrivial : MeterConfig :=
  { farePerMile := 2
    waitTimePerMinute := 1 / 2
    baseFare := none
    minimumFare := none
    waitTriggerSpeedMph := none
    idleGracePeriodSeconds := none
    surgeEnabled := none
    surgeMultiplier := none }

/-- C7 counterexample: a completed state is not left unchanged by every
action other than RESET — dispatching START on a completed state
re-initialises it to a fresh running state (the reducer's START case has
no status guard). -/
theorem completed_state_mutated_by_start :
    meterReducer (fun _ _ => 0) 0 completedSample (.START 5 none meterCfgTrivial)
      ≠ completedSample := by
  decide

/-- C7 (amended): a completed state is returned unchanged by
LOCATION_UPDATE, PAUSE, RESUME and STOP; but START and HYDRATE replace
the state from any status (including completed), and SET_ERROR rewrites
the `error` field, so only those four actions leave a completed snapshot
untouched. -/
theorem completed_state_frozen_under_passive_actions
    (dist : Coord → Coord → ℚ) (now : ℚ) (state : MeterState) (a : MeterAction)
    (hc : state.status = .completed) (hp : IsPassiveAction a) :
    meterReducer dist now state a = state := by
  cases a <;> simp only [IsPassiveAction] at hp <;>
    simp [meterReducer, locationUpdate, hc]

theorem completed_state_frozen_under_passive_actions_witness :
    completedSample.status = .completed ∧
    meterReducer (fun _ _ => 0) 7 completedSample .PAUSE = completedSample :=
  ⟨rfl, completed_state_frozen_under_passive_actions (fun _ _ => 0) 7
    completedSample .PAUSE rfl trivial⟩

/-! ## Claim C4 — flat-rate fares -/

/-- A fare configuration with no optional pricing fields set. -/
def fareCfgTrivial : FareConfig :=
  { farePerMile := 0
    extraPass := none
    waitTimePerMinute := 0
    baseFare := none
    minimumFare := none
    waitTriggerSpeedMph := none
    idleGracePeriodSeconds := none
    meterRoundingMode := none
    surgeEnabled := none
    surgeMultiplier := none }

/-- C4 counterexample: with a negative flat rate the total is not
`round(flatRateAmount + extraPassengerFare + otherFeesTotal)` — the code
clamps the flat amount to 0 (`safeAmount`) before adding extras, so a
flat rate of −5 with a 10 fee totals 10, not round(−5 + 10) = 5. -/
theorem flat_rate_formula_fails_for_negative_amount :
    (computeFareBreakdown fareCfgTrivial 0 0 1 [⟨"fee", 10⟩] (some (-5))).total ≠
      applyMeterRounding
        ((-5) + (computeFareBreakdown fareCfgTrivial 0 0 1 [⟨"fee", 10⟩] (some (-5))).extraPassengerFare
          + (computeFareBreakdown fareCfgTrivial 0 0 1 [⟨"fee", 10⟩] (some (-5))).otherFeesTotal)
        fareCfgTrivial.meterRoundingMode := by
  norm_num [computeFareBreakdown, applyMeterRounding, safeAmount, clampPassengers,
    fareCfgTrivial]

/-- C4 (amended): for every config, distance, wait, passenger count and
fee list, if `flatRateAmount` is provided, finite and nonnegative then
`computeFareBreakdown` returns
`total = round(flatRateAmount + extraPassengerFare + otherFeesTotal)`
(rounding per the config's `meterRoundingMode`), reports
`surgeMultiplier = 1` and `minimumApplied = false`, and in particular with
one passenger and no other fees the total is `round(flatRateAmount)`.
(A negative flat amount is first clamped to 0 by `safeAmount`.) -/
theorem flat_rate_ignores_surge_and_minimum
    (config : FareConfig) (distanceMiles waitMinutes passengerCount : ℚ)
    (otherFees : List OtherFee) (flat : ℚ) (hflat : 0 ≤ flat) :
    ((computeFareBreakdown config distanceMiles waitMinutes passengerCount otherFees
        (some flat)).total =
      applyMeterRounding
        (flat + (computeFareBreakdown config distanceMiles waitMinutes passengerCount otherFees
            (some flat)).extraPassengerFare
          + (computeFareBreakdown config distanceMiles waitMinutes passengerCount otherFees
              (some flat)).otherFeesTotal)
        config.meterRoundingMode) ∧
    (computeFareBreakdown config distanceMiles waitMinutes passengerCount otherFees
        (some flat)).surgeMultiplier = 1 ∧
    (computeFareBreakdown config distanceMiles waitMinutes passengerCount otherFees
        (some flat)).minimumApplied = false ∧
    (passengerCount = 1 → otherFees = [] →
      (computeFareBreakdown config distanceMiles waitMinutes passengerCount otherFees
          (some flat)).total = applyMeterRounding flat config.meterRoundingMode) := by
  have hsafe : safeAmount (some flat) 0 = flat := by
    simp [safeAmount, not_lt.mpr hflat]
  refine ⟨?_, ?_, ?_, ?_⟩
  · simp [computeFareBreakdown, hsafe]
  · simp [computeFareBreakdown]
  · simp [computeFareBreakdown]
  · intro hpc hfees
    subst hpc hfees
    have hclamp : clampPassengers 1 = 1 := by norm_num [clampPassengers]
    simp [computeFareBreakdown, hsafe, hclamp]

theorem flat_rate_ignores_surge_and_minimum_witness :
    (0 : ℚ) ≤ 25 ∧
    (computeFareBreakdown fareCfgTrivial 3 4 1 [] (some 25)).total =
      applyMeterRounding 25 fareCfgTrivial.meterRoundingMode :=
  ⟨by norm_num,
    (flat_rate_ignores_surge_and_minimum fareCfgTrivial 3 4 1 [] 25
      (by norm_num)).2.2.2 rfl rfl⟩

/-! ## Claims C5, C10 — outbox drain classification -/

/-- The outcome of processing an item was a thrown error that
`flushOutbox` classifies as a network-layer failure (no usable status). -/
def NetworkBlocked (o : Option (Option ℕ)) : Prop :=
  match o with
  | some st => isNetworkStatus st = true
  | none => False

/-- The outcome of processing an item was a thrown error carrying an
authoritative (truthy) HTTP status. -/
def AuthRejected (o : Option (Option ℕ)) : Prop :=
  match o with
  | some st => isNetworkStatus st = false
  | none => False

theorem flushLoop_resolved_removed
    (cf : String → Payload → CallResult (Option String))
    (us : String → String → Payload → CallResult Unit) (tok : String)
    (pre post : List OutboxItem) (x : OutboxItem)
    (hpre : ∀ y ∈ pre, ¬ NetworkBlocked (processItem cf us tok y).1)
    (hx : ¬ NetworkBlocked (processItem cf us tok x).1) :
    (flushLoop cf us tok (pre ++ x :: post)).1 = (flushLoop cf us tok (pre ++ post)).1 := by
  induction pre with
  | nil =>
    rcases h : (processItem cf us tok x).1 with _ | st
    · simp [flushLoop, h]
    · rw [h] at hx
      have hb : isNetworkStatus st = false := by
        simpa [NetworkBlocked] using hx
      simp [flushLoop, h, hb]
  | cons y pre ih =>
    have hy := hpre y (by simp)
    have hrest : ∀ z ∈ pre, ¬ NetworkBlocked (processItem cf us tok z).1 := by
      intro z hz
      exact hpre z (by simp [hz])
    rcases h : (processItem cf us tok y).1 with _ | st
    · simpa [flushLoop, h] using ih hrest
    · rw [h] at hy
      have hb : isNetworkStatus st = false := by
        simpa [NetworkBlocked] using hy
      simpa [flushLoop, h, hb] using ih hrest

theorem flushLoop_stops_at_network
    (cf : String → Payload → CallResult (Option String))
    (us : String → String → Payload → CallResult Unit) (tok : String)
    (pre post : List OutboxItem) (x : OutboxItem)
    (hpre : ∀ y ∈ pre, ¬ NetworkBlocked (processItem cf us tok y).1)
    (hx : NetworkBlocked (processItem cf us tok x).1) :
    (flushLoop cf us tok (pre ++ x :: post)).1 = x :: post := by
  induction pre with
  | nil =>
    rcases h : (processItem cf us tok x).1 with _ | st
    · rw [h] at hx
      simp [NetworkBlocked] at hx
    · rw [h] at hx
      have hb : isNetworkStatus st = true := by
        simpa [NetworkBlocked] using hx
      simp [flushLoop, h, hb]
  | cons y pre ih =>
    have hy := hpre y (by simp)
    have hrest : ∀ z ∈ pre, ¬ NetworkBlocked (processItem cf us tok z).1 := by
      intro z hz
      exact hpre z (by simp [hz])
    rcases h : (processItem cf us tok y).1 with _ | st
    · simpa [flushLoop, h] using ih hrest
    · rw [h] at hy
      have hb : isNetworkStatus st = false := by
        simpa [NetworkBlocked] using hy
      simpa [flushLoop, h, hb] using ih hrest

/-- C5: during one drain of `flushOutbox`, once the loop reaches an entry
(no earlier entry failed at the network layer), an entry whose submission
fails with an authoritative rejection (an error carrying an HTTP status)
is removed permanently — the stored result is exactly what draining the
queue without it produces — while an entry whose submission fails at the
network layer is retained together with every entry after it, in the
original insertion order, and the drain stops advancing there. -/
theorem outbox_drain_drops_auth_and_blocks_on_network
    (cf : String → Payload → CallResult (Option String))
    (us : String → String → Payload → CallResult Unit) (tok : String)
    (pre post : List OutboxItem) (x : OutboxItem)
    (hpre : ∀ y ∈ pre, ¬ NetworkBlocked (processItem cf us tok y).1) :
    (AuthRejected (processItem cf us tok x).1 →
      (flushOutbox cf us (some tok) (pre ++ x :: post)).1
        = (flushLoop cf us tok (pre ++ post)).1) ∧
    (NetworkBlocked (processItem cf us tok x).1 →
      (flushOutbox cf us (some tok) (pre ++ x :: post)).1 = x :: post) := by
  have hne : pre ++ x :: post ≠ [] := by
    cases pre <;> simp
  constructor
  · intro hx
    have hnb : ¬ NetworkBlocked (processItem cf us tok x).1 := by
      rcases h : (processItem cf us tok x).1 with _ | st <;> rw [h] at hx
      · simp [AuthRejected] at hx
      · simp only [AuthRejected] at hx
        simp [NetworkBlocked, hx]
    rw [flushOutbox, if_neg hne]
    exact flushLoop_resolved_removed cf us tok pre post x hpre hnb
  · intro hx
    rw [flushOutbox, if_neg hne]
    exact flushLoop_stops_at_network cf us tok pre post x hpre hx

theorem outbox_drain_drops_auth_and_blocks_on_network_witness :
    (AuthRejected
        (processItem (fun _ _ => .error (some 400)) (fun _ _ _ => .error (some 400)) "tok"
          (.updateBookingStatus "a" "b1" ⟨"p"⟩ 0)).1 →
      (flushOutbox (fun _ _ => .error (some 400)) (fun _ _ _ => .error (some 400)) (some "tok")
          ([] ++ (.updateBookingStatus "a" "b1" ⟨"p"⟩ 0) :: [])).1
        = (flushLoop (fun _ _ => .error (some 400)) (fun _ _ _ => .error (some 400)) "tok"
            ([] ++ [])).1) ∧
    (NetworkBlocked
        (processItem (fun _ _ => .error (some 400)) (fun _ _ _ => .error (some 400)) "tok"
          (.updateBookingStatus "a" "b1" ⟨"p"⟩ 0)).1 →
      (flushOutbox (fun _ _ => .error (some 400)) (fun _ _ _ => .error (some 400)) (some "tok")
          ([] ++ (.updateBookingStatus "a" "b1" ⟨"p"⟩ 0) :: [])).1
        = (.updateBookingStatus "a" "b1" ⟨"p"⟩ 0) :: []) :=
  outbox_drain_drops_auth_and_blocks_on_network
    (fun _ _ => .error (some 400)) (fun _ _ _ => .error (some 400)) "tok" [] []
    (.updateBookingStatus "a" "b1" ⟨"p"⟩ 0) (by intro y hy; simp at hy)

/-- C10: when `flushOutbox` processes a `flagdownAndComplete` entry whose
`createFlagdown` call succeeds with a response carrying no booking id,
the entry resolves as a success — it is removed from the outbox and the
only network call issued for it is the `createFlagdown` itself: the
completion half (`updateBookingStatus`) is silently dropped, not retried. -/
theorem flagdown_without_booking_id_drops_completion
    (cf : String → Payload → CallResult (Option String))
    (us : String → String → Payload → CallResult Unit) (tok : String)
    (pre post : List OutboxItem) (i : String) (fp cp : Payload) (ca : ℚ)
    (hpre : ∀ y ∈ pre, ¬ NetworkBlocked (processItem cf us tok y).1)
    (hcf : cf tok fp = .ok none) :
    processItem cf us tok (.flagdownAndComplete i fp cp ca)
        = (none, [.createFlagdown fp]) ∧
    (flushOutbox cf us (some tok) (pre ++ (.flagdownAndComplete i fp cp ca) :: post)).1
        = (flushLoop cf us tok (pre ++ post)).1 := by
  have hproc : processItem cf us tok (.flagdownAndComplete i fp cp ca)
      = (none, [.createFlagdown fp]) := by
    simp [processItem, hcf]
  refine ⟨hproc, ?_⟩
  have hne : pre ++ (OutboxItem.flagdownAndComplete i fp cp ca) :: post ≠ [] := by
    cases pre <;> simp
  rw [flushOutbox, if_neg hne]
  exact flushLoop_resolved_removed cf us tok pre post _ hpre (by simp [NetworkBlocked, hproc])

theorem flagdown_without_booking_id_drops_completion_witness :
    processItem (fun _ _ => .ok none) (fun _ _ _ => .error none) "tok"
        (.flagdownAndComplete "f1" ⟨"fp"⟩ ⟨"cp"⟩ 0)
      = (none, [.createFlagdown ⟨"fp"⟩]) ∧
    (flushOutbox (fun _ _ => .ok none) (fun _ _ _ => .error none) (some "tok")
        ([] ++ (.flagdownAndComplete "f1" ⟨"fp"⟩ ⟨"cp"⟩ 0) :: [])).1
      = (flushLoop (fun _ _ => .ok none) (fun _ _ _ => .error none) "tok" ([] ++ [])).1 :=
  flagdown_without_booking_id_drops_completion
    (fun _ _ => .ok none) (fun _ _ _ => .error none) "tok" [] [] "f1" ⟨"fp"⟩ ⟨"cp"⟩ 0
    (by intro y hy; simp at hy) rfl

/-! ## Claim C6 — backoff -/

/-- A concrete `createFlagdown` oracle that always fails at the network
layer (thrown error with no status). -/
def cfNetFail : String → Payload → CallResult (Option String) := fun _ _ => .error none

/-- A concrete `updateBookingStatus` oracle that always fails at the
network layer. -/
def usNetFail : String → String → Payload → CallResult Unit := fun _ _ _ => .error none

/-- A concrete trip-completion outbox entry. -/
def outboxItemSample : OutboxItem := .updateBookingStatus "ob-1" "bk-1" ⟨"payload"⟩ 0

/-- C6 counterexample: trip-completion outbox entries carry no backoff
state and are not skipped.  After a network-layer failure the retained
entry is bit-identical (no `attempts` counter is incremented — the
`OutboxItem` record has no such field) and an immediately following drain
issues its network call again, although zero time has elapsed, which is
less than any window `min(1 hour, 2^attempts seconds)`. -/
theorem trip_outbox_entry_retried_without_backoff :
    (flushOutbox cfNetFail usNetFail (some "tok") [outboxItemSample]).1
        = [outboxItemSample] ∧
    (flushOutbox cfNetFail usNetFail (some "tok")
        (flushOutbox cfNetFail usNetFail (some "tok") [outboxItemSample]).1).2
      = [.updateBookingStatus "bk-1" ⟨"payload"⟩] := by
  constructor <;> rfl

/-- C6 (amended): the exponential backoff belongs to the hours-of-service
queue (`processPendingQueue`), not to the trip-completion outbox
(`flushOutbox`, which retries retained entries on every drain).  A queue
entry with `attempts > 0` and a recorded `lastAttemptAt` is skipped —
left unchanged, with no send attempted — exactly while
`now − lastAttemptAt < min(1 hour, 2^attempts seconds)`; once the window
has elapsed it is attempted, and on failure (any failure: this queue does
not classify network vs authoritative) its `attempts` counter is
incremented and `lastAttemptAt` is stamped with the current time, while
on success it is removed. -/
theorem hos_backoff_skip_and_increment
    (ok : HosQueueEntry → Bool) (now : ℚ) (tok : String) (e : HosQueueEntry)
    (a : ℕ) (last : ℚ) (ha : e.attempts = some a) (hpos : 0 < a)
    (hlast : e.lastAttemptAt = some last) :
    (now - last < min (60 * 60 * 1000) ((2 : ℚ) ^ a * 1000) →
      processPendingQueue ok now (some tok) [e] = ([e], [])) ∧
    (min (60 * 60 * 1000) ((2 : ℚ) ^ a * 1000) ≤ now - last →
      (ok e = false →
        processPendingQueue ok now (some tok) [e]
          = ([{ e with attempts := some (a + 1), lastAttemptAt := some now }], [e.id])) ∧
      (ok e = true →
        processPendingQueue ok now (some tok) [e] = ([], [e.id]))) := by
  constructor
  · intro hwin
    have hskip : shouldSkipHos now e = true := by
      simp [shouldSkipHos, ha, hlast, backoffWaitMs, hpos, hwin]
    simp [processPendingQueue, processQueueLoop, hskip]
  · intro hwin
    have hskip : shouldSkipHos now e = false := by
      simp [shouldSkipHos, ha, hlast, backoffWaitMs, not_lt.mpr hwin]
    constructor
    · intro hfail
      simp [processPendingQueue, processQueueLoop, hskip, hfail, markAttemptFailed, ha]
    · intro hok
      simp [processPendingQueue, processQueueLoop, hskip, hok, removeQueueEntry]

theorem hos_backoff_skip_and_increment_witness :
    ({ id := "h1", date := "2026-01-01", minutes := 30, attempts := some 2,
        lastAttemptAt := some 0 } : HosQueueEntry).attempts = some 2 ∧
    (1 : ℚ) - 0 < min (60 * 60 * 1000) ((2 : ℚ) ^ 2 * 1000) ∧
    processPendingQueue (fun _ => false) 1 (some "tok")
        [{ id := "h1", date := "2026-01-01", minutes := 30, attempts := some 2,
            lastAttemptAt := some 0 }]
      = ([{ id := "h1", date := "2026-01-01", minutes := 30, attempts := some 2,
            lastAttemptAt := some 0 }], []) :=
  ⟨rfl, by norm_num,
    (hos_backoff_skip_and_increment (fun _ => false) 1 "tok" _ 2 0 rfl
      (by norm_num) rfl).1 (by norm_num)⟩

/-! ## Claim C3 — idle grace period -/

/-- Run the meter over a list of location samples given as
(timestamp, reported speed, coordinate) triples. -/
def runSamples (dist : Coord → Coord → ℚ) (now : ℚ) (s : MeterState)
    (samples : List (ℚ × ℚ × Coord)) : MeterState :=
  samples.foldl
    (fun st x => meterReducer dist now st (.LOCATION_UPDATE ⟨x.2.2, some x.2.1, some x.1⟩)) s

/-- The timestamp of the last sample in a run (defaulting to the start). -/
def lastTimeD (samples : List (ℚ × ℚ × Coord)) (t : ℚ) : ℚ :=
  samples.foldl (fun _ x => x.1) t

theorem idle_step_anchored
    (dist : Coord → Coord → ℚ) (now : ℚ) (s : MeterState) (anc tl t sp : ℚ) (c : Coord)
    (hrun : s.status = .running)
    (hanc : s.idleAnchor = some anc)
    (htl : s.lastTimestamp = some tl)
    (hanc_le : anc ≤ tl) (hmono : tl ≤ t)
    (hsp0 : 0 ≤ sp) (hsp : sp ≤ waitThresholdOf s.config) :
    (meterReducer dist now s (.LOCATION_UPDATE ⟨c, some sp, some t⟩)).status = .running ∧
    (meterReducer dist now s (.LOCATION_UPDATE ⟨c, some sp, some t⟩)).config = s.config ∧
    (meterReducer dist now s (.LOCATION_UPDATE ⟨c, some sp, some t⟩)).idleAnchor = some anc ∧
    (meterReducer dist now s (.LOCATION_UPDATE ⟨c, some sp, some t⟩)).lastTimestamp = some t ∧
    (meterReducer dist now s (.LOCATION_UPDATE ⟨c, some sp, some t⟩)).waitSeconds
      = s.waitSeconds
        + (max 0 ((t - anc) / 1000 - graceSecondsOf s.config)
            - max 0 ((tl - anc) / 1000 - graceSecondsOf s.config)) := by
  have hanc_t : anc ≤ t := hanc_le.trans hmono
  have hprev : max (0 : ℚ) ((tl - anc) / 1000) = (tl - anc) / 1000 :=
    max_eq_right (div_nonneg (by linarith) (by norm_num))
  have hcurr : max (0 : ℚ) ((t - anc) / 1000) = (t - anc) / 1000 :=
    max_eq_right (div_nonneg (by linarith) (by norm_num))
  have hmonoq : (tl - anc) / 1000 ≤ (t - anc) / 1000 := by
    apply div_le_div_of_nonneg_right _ (by norm_num)
    linarith
  have heff : max (0 : ℚ)
      (max 0 ((t - anc) / 1000 - graceSecondsOf s.config)
        - max 0 ((tl - anc) / 1000 - graceSecondsOf s.config))
      = max 0 ((t - anc) / 1000 - graceSecondsOf s.config)
        - max 0 ((tl - anc) / 1000 - graceSecondsOf s.config) := by
    apply max_eq_right
    have := max0_mono (sub_le_sub_right hmonoq (graceSecondsOf s.config))
    linarith
  simp only [meterReducer, locationUpdate, hrun, if_true, hanc, htl, Option.getD_some]
  simp [waitAndAnchorUpd, hsp0, hsp, hprev, hcurr, heff]

theorem idle_run_anchored
    (dist : Coord → Coord → ℚ) (now : ℚ) (samples : List (ℚ × ℚ × Coord)) :
    ∀ (s : MeterState) (anc tl : ℚ),
    s.status = .running → s.idleAnchor = some anc → s.lastTimestamp = some tl →
    anc ≤ tl →
    List.Chain (· ≤ ·) tl (samples.map (fun x => x.1)) →
    (∀ x ∈ samples, 0 ≤ x.2.1 ∧ x.2.1 ≤ waitThresholdOf s.config) →
    (runSamples dist now s samples).waitSeconds
      = s.waitSeconds
        + (max 0 ((lastTimeD samples tl - anc) / 1000 - graceSecondsOf s.config)
            - max 0 ((tl - anc) / 1000 - graceSecondsOf s.config)) ∧
    (runSamples dist now s samples).status = .running ∧
    (runSamples dist now s samples).config = s.config ∧
    (runSamples dist now s samples).idleAnchor = some anc ∧
    (runSamples dist now s samples).lastTimestamp = some (lastTimeD samples tl) := by
  induction samples with
  | nil =>
    intro s anc tl hrun hanc htl _ _ _
    refine ⟨by simp [runSamples, lastTimeD], by simpa [runSamples] using hrun,
      by simp [runSamples], by simpa [runSamples] using hanc,
      by simpa [runSamples, lastTimeD] using htl⟩
  | cons x xs ih =>
    intro s anc tl hrun hanc htl hanc_le hchain hspeeds
    rcases hchain with _ | ⟨hle, hchain'⟩
    have hx := hspeeds x (by simp)
    obtain ⟨h1, h2, h3, h4, h5⟩ :=
      idle_step_anchored dist now s anc tl x.1 x.2.1 x.2.2 hrun hanc htl hanc_le hle
        hx.1 hx.2
    set s1 := meterReducer dist now s (.LOCATION_UPDATE ⟨x.2.2, some x.2.1, some x.1⟩) with hs1
    have hanc_le1 : anc ≤ x.1 := hanc_le.trans hle
    have hspeeds1 : ∀ z ∈ xs, 0 ≤ z.2.1 ∧ z.2.1 ≤ waitThresholdOf s1.config := by
      intro z hz
      rw [h2]
      exact hspeeds z (by simp [hz])
    obtain ⟨w1, w2, w3, w4, w5⟩ := ih s1 anc x.1 h1 h3 h4 hanc_le1 hchain' hspeeds1
    have hrunfold : runSamples dist now s (x :: xs) = runSamples dist now s1 xs := by
      simp [runSamples, hs1]
    have hlastfold : lastTimeD (x :: xs) tl = lastTimeD xs x.1 := by
      simp [lastTimeD]
    rw [hrunfold, hlastfold]
    refine ⟨?_, w2, by rw [w3, h2], w4, w5⟩
    rw [w1, h5, h2]
    ring

/-- A meter pricing configuration with the default 45-second idle grace
period set explicitly. -/
def meterCfgGrace45 : MeterConfig :=
  { meterCfgTrivial with idleGracePeriodSeconds := some 45 }

/-- A freshly started running meter state used as a concrete input. -/
def runningSample : MeterState :=
  { initialState with
      status := .running
      startedAt := some 0
      lastTimestamp := some 0
      config := some meterCfgGrace45 }

/-- C3: with `idleGracePeriodSeconds = 45`, for one contiguous idle period
of at-or-below-threshold samples starting at the sample that sets the
idle anchor (at time `t0`) and ending at time `tn`, the reducer adds
exactly `max 0 ((tn − t0)/1000 − 45)` seconds of wait — so an idle period
of 45 s or less adds zero wait, a 105 s idle period adds exactly 60 s,
and the incremental per-sample accumulation never double-counts. -/
theorem idle_grace_wait_accumulation
    (dist : Coord → Coord → ℚ) (now : ℚ) (s : MeterState) (cfg : MeterConfig)
    (t0 sp0 : ℚ) (c0 : Coord) (rest : List (ℚ × ℚ × Coord))
    (hrun : s.status = .running) (hcfg : s.config = some cfg)
    (hgrace : cfg.idleGracePeriodSeconds = some 45)
    (hanc : s.idleAnchor = none)
    (hsp0 : 0 ≤ sp0) (hsp0le : sp0 ≤ waitThresholdOf s.config)
    (hchain : List.Chain (· ≤ ·) t0 (rest.map (fun x => x.1)))
    (hspeeds : ∀ x ∈ rest, 0 ≤ x.2.1 ∧ x.2.1 ≤ waitThresholdOf s.config) :
    (runSamples dist now s ((t0, sp0, c0) :: rest)).waitSeconds
      = s.waitSeconds + max 0 ((lastTimeD rest t0 - t0) / 1000 - 45) ∧
    (lastTimeD rest t0 - t0 ≤ 45 * 1000 →
      (runSamples dist now s ((t0, sp0, c0) :: rest)).waitSeconds = s.waitSeconds) ∧
    (lastTimeD rest t0 - t0 = 105 * 1000 →
      (runSamples dist now s ((t0, sp0, c0) :: rest)).waitSeconds = s.waitSeconds + 60) := by
  have hgraceq : graceSecondsOf s.config = 45 := by
    simp [graceSecondsOf, hcfg, hgrace]
  -- the first sample sets the anchor at t0 and leaves waitSeconds unchanged
  have hstep : (meterReducer dist now s (.LOCATION_UPDATE ⟨c0, some sp0, some t0⟩)).status
        = .running ∧
      (meterReducer dist now s (.LOCATION_UPDATE ⟨c0, some sp0, some t0⟩)).config = s.config ∧
      (meterReducer dist now s (.LOCATION_UPDATE ⟨c0, some sp0, some t0⟩)).idleAnchor
        = some t0 ∧
      (meterReducer dist now s (.LOCATION_UPDATE ⟨c0, some sp0, some t0⟩)).lastTimestamp
        = some t0 ∧
      (meterReducer dist now s (.LOCATION_UPDATE ⟨c0, some sp0, some t0⟩)).waitSeconds
        = s.waitSeconds := by
    simp only [meterReducer, locationUpdate, hrun, if_true, hanc, Option.getD_some]
    simp [waitAndAnchorUpd, hsp0, hsp0le]
  obtain ⟨h1, h2, h3, h4, h5⟩ := hstep
  set s1 := meterReducer dist now s (.LOCATION_UPDATE ⟨c0, some sp0, some t0⟩) with hs1
  have hspeeds1 : ∀ z ∈ rest, 0 ≤ z.2.1 ∧ z.2.1 ≤ waitThresholdOf s1.config := by
    intro z hz
    rw [h2]
    exact hspeeds z hz
  obtain ⟨w1, _, w3, _, _⟩ :=
    idle_run_anchored dist now rest s1 t0 t0 h1 h3 h4 le_rfl hchain hspeeds1
  have hmain : (runSamples dist now s ((t0, sp0, c0) :: rest)).waitSeconds
      = s.waitSeconds + max 0 ((lastTimeD rest t0 - t0) / 1000 - 45) := by
    have hrunfold : runSamples dist now s ((t0, sp0, c0) :: rest)
        = runSamples dist now s1 rest := by
      simp [runSamples, hs1]
    rw [hrunfold, w1, h5, h2, hgraceq]
    norm_num
  refine ⟨hmain, ?_, ?_⟩
  · intro hle
    rw [hmain]
    have : (lastTimeD rest t0 - t0) / 1000 - 45 ≤ 0 := by linarith
    rw [max_eq_left this]
    ring
  · intro heq
    rw [hmain, heq]
    norm_num

theorem idle_grace_wait_accumulation_witness :
    runningSample.status = .running ∧
    (runSamples (fun _ _ => 0) 0 runningSample
        [(0, 0, ⟨0, 0⟩), (105000, 0, ⟨0, 0⟩)]).waitSeconds
      = runningSample.waitSeconds + 60 :=
  ⟨rfl,
    (idle_grace_wait_accumulation (fun _ _ => 0) 0 runningSample meterCfgGrace45
        0 0 ⟨0, 0⟩ [(105000, 0, ⟨0, 0⟩)] rfl rfl rfl rfl le_rfl
        (by norm_num [waitThresholdOf, runningSample, meterCfgGrace45, meterCfgTrivial,
          mphToMetersPerSecond])
        (by constructor
            · norm_num
            · exact List.Chain.nil)
        (by intro x hx
            simp at hx
            subst hx
            norm_num [waitThresholdOf, runningSample, meterCfgGrace45, meterCfgTrivial,
              mphToMetersPerSecond])).2.2
      (by norm_num [lastTimeD])⟩

/-! ## Claim C8 — point cap and thinning -/

theorem getLast?_drop_of_lt {α : Type} (l : List α) (k : ℕ) (h : k < l.length) :
    (l.drop k).getLast? = l.getLast? := by
  rw [List.getLast?_eq_getElem?, List.getLast?_eq_getElem?, List.getElem?_drop,
    List.length_drop]
  congr 1
  omega

theorem foldl_fix {α β : Type} (f : α → β → α) (s : α) (x : β) (h : f s x = s) :
    ∀ n, (List.replicate n x).foldl f s = s := by
  intro n
  induction n with
  | zero => rfl
  | succ n ih => simpa [List.replicate_succ, h] using ih

theorem thinAndCap_length_le (dist : Coord → Coord → ℚ) (pts : List Coord) (c : Coord) :
    (thinAndCap dist pts c).length ≤ MAX_POINTS := by
  simp only [thinAndCap]
  split_ifs with h1 h2 h3 <;>
    first
      | (simp only [List.length_drop]; omega)
      | exact le_of_not_lt (by assumption)

theorem thinAndCap_stored (dist : Coord → Coord → ℚ) (pts : List Coord) (c c0 : Coord)
    (hlast : pts.getLast? = some c0) (hdist : dist c0 c > 5) :
    (thinAndCap dist pts c).length = min (pts.length + 1) MAX_POINTS ∧
    (thinAndCap dist pts c).getLast? = some c := by
  have hs : (match pts.getLast? with
      | none => true
      | some p => decide (dist p c > 5)) = true := by
    rw [hlast]
    simpa using hdist
  simp only [thinAndCap, hs, if_true]
  by_cases hlen : (pts ++ [c]).length > MAX_POINTS
  · have hklt : (pts ++ [c]).length - MAX_POINTS < (pts ++ [c]).length := by
      simp only [List.length_append, List.length_cons, List.length_nil, MAX_POINTS] at hlen ⊢
      omega
    refine ⟨?_, ?_⟩
    · simp only [hlen, if_true, List.length_drop]
      simp only [List.length_append, List.length_cons, List.length_nil, MAX_POINTS] at hlen ⊢
      omega
    · simp only [hlen, if_true]
      rw [getLast?_drop_of_lt _ _ hklt]
      simp
  · refine ⟨?_, ?_⟩
    · simp only [hlen, if_false]
      simp only [List.length_append, List.length_cons, List.length_nil] at hlen ⊢
      omega
    · simp only [hlen, if_false]
      simp

theorem thinAndCap_suffix (dist : Coord → Coord → ℚ) (pts : List Coord) (c : Coord) :
    (∃ k, thinAndCap dist pts c = (pts ++ [c]).drop k) ∨
      ∃ k, thinAndCap dist pts c = pts.drop k := by
  simp only [thinAndCap]
  cases hs : (match pts.getLast? with
      | none => true
      | some p => decide (dist p c > 5)) with
  | true =>
    left
    simp only [hs, if_true]
    split_ifs with h
    · exact ⟨_, rfl⟩
    · exact ⟨0, by simp⟩
  | false =>
    right
    simp only [hs, Bool.false_eq_true, if_false]
    split_ifs with h
    · exact ⟨_, rfl⟩
    · exact ⟨0, by simp⟩

theorem locationUpdate_points (dist : Coord → Coord → ℚ) (now : ℚ)
    (s : MeterState) (loc : LocationObject) (hrun : s.status = .running) :
    (locationUpdate dist now s loc).points = thinAndCap dist s.points loc.coords := by
  simp [locationUpdate, hrun]

theorem locationUpdate_keeps_running (dist : Coord → Coord → ℚ) (now : ℚ)
    (s : MeterState) (loc : LocationObject) (hrun : s.status = .running) :
    (locationUpdate dist now s loc).status = .running := by
  simp [locationUpdate, hrun]

theorem points_cap_step (dist : Coord → Coord → ℚ) (now : ℚ)
    (s : MeterState) (a : MeterAction) (h : s.points.length ≤ MAX_POINTS) :
    (meterReducer dist now s a).points.length ≤ MAX_POINTS := by
  cases a with
  | HYDRATE payload =>
    simp only [meterReducer]
    split_ifs with hlen
    · simp only [List.length_drop]
      omega
    · exact le_of_not_lt hlen
  | START t loc cfg =>
    cases loc with
    | none => simp [meterReducer, MAX_POINTS]
    | some l =>
      simp only [meterReducer]
      split_ifs <;> simp [MAX_POINTS]
  | LOCATION_UPDATE loc =>
    by_cases hrun : s.status = .running
    · have : meterReducer dist now s (.LOCATION_UPDATE loc) = locationUpdate dist now s loc :=
        rfl
      rw [this, locationUpdate_points dist now s loc hrun]
      exact thinAndCap_length_le dist s.points loc.coords
    · simpa [meterReducer, locationUpdate, hrun] using h
  | PAUSE =>
    by_cases hrun : s.status = .running <;> simpa [meterReducer, hrun] using h
  | RESUME t =>
    by_cases hp : s.status = .paused <;> simpa [meterReducer, hp] using h
  | STOP t =>
    by_cases hs : s.status = .idle ∨ s.status = .completed <;>
      simpa [meterReducer, hs] using h
  | RESET => simp [meterReducer, initialState, MAX_POINTS]
  | SET_ERROR e => simpa [meterReducer] using h

theorem update_points_stored (dist : Coord → Coord → ℚ) (now : ℚ)
    (s : MeterState) (loc : LocationObject) (c0 : Coord)
    (hrun : s.status = .running)
    (hlast : s.points.getLast? = some c0)
    (hdist : dist c0 loc.coords > 5) :
    (meterReducer dist now s (.LOCATION_UPDATE loc)).points.length
        = min (s.points.length + 1) MAX_POINTS ∧
    (meterReducer dist now s (.LOCATION_UPDATE loc)).points.getLast? = some loc.coords ∧
    (meterReducer dist now s (.LOCATION_UPDATE loc)).status = .running := by
  have hred : meterReducer dist now s (.LOCATION_UPDATE loc) = locationUpdate dist now s loc :=
    rfl
  have hpts := locationUpdate_points dist now s loc hrun
  have hthin := thinAndCap_stored dist s.points loc.coords c0 hlast hdist
  refine ⟨?_, ?_, ?_⟩
  · rw [hred, hpts, hthin.1]
  · rw [hred, hpts, hthin.2]
  · rw [hred]
    exact locationUpdate_keeps_running dist now s loc hrun

theorem stored_run_length (dist : Coord → Coord → ℚ) (now : ℚ)
    (samples : List (ℚ × ℚ × Coord)) :
    ∀ (s : MeterState) (c0 : Coord),
    s.status = .running →
    s.points.getLast? = some c0 →
    s.points.length ≤ MAX_POINTS →
    List.Chain (fun a b => dist a b > 5) c0 (samples.map (fun x => x.2.2)) →
    (runSamples dist now s samples).points.length
      = min (s.points.length + samples.length) MAX_POINTS := by
  induction samples with
  | nil =>
    intro s c0 _ _ hle _
    simp only [runSamples, List.foldl_nil, List.length_nil, Nat.add_zero]
    omega
  | cons x xs ih =>
    intro s c0 hrun hlast hle hchain
    rcases hchain with _ | ⟨hd, htl⟩
    obtain ⟨p1, p2, p3⟩ := update_points_stored dist now s ⟨x.2.2, some x.2.1, some x.1⟩ c0
      hrun hlast hd
    set s1 := meterReducer dist now s (.LOCATION_UPDATE ⟨x.2.2, some x.2.1, some x.1⟩) with hs1
    have hle1 : s1.points.length ≤ MAX_POINTS := by
      rw [p1]; omega
    have hrunfold : runSamples dist now s (x :: xs) = runSamples dist now s1 xs := by
      simp [runSamples, hs1]
    rw [hrunfold, ih s1 x.2.2 p3 p2 hle1 htl, p1]
    simp only [List.length_cons]
    omega

/-- A stationary location fix at the origin. -/
def stationaryLoc : LocationObject := ⟨⟨0, 0⟩, some 0, some 0⟩

/-- A running meter state sitting still at the origin with the idle anchor
already set — the state reached after starting at the origin and
receiving one stationary fix. -/
def stationaryState : MeterState :=
  { initialState with
      status := .running
      startedAt := some 0
      lastLocation := some stationaryLoc
      lastTimestamp := some 0
      idleAnchor := some 0
      points := [⟨0, 0⟩] }

theorem stationary_step_fix :
    meterReducer (fun _ _ => 0) 0 stationaryState (.LOCATION_UPDATE stationaryLoc)
      = stationaryState := by
  simp only [meterReducer, locationUpdate, stationaryState, stationaryLoc, initialState]
  norm_num [waitThresholdOf, graceSecondsOf, mphToMetersPerSecond, waitAndAnchorUpd,
    thinAndCap, MAX_POINTS]

/-- C8 counterexample: a run of 501 location updates does not always leave
exactly `MAX_POINTS` stored points — point thinning stores a new point
only when it is more than 5 m from the last stored one, so 501 stationary
updates leave a single stored point.  (The distance function is
instantiated as constantly 0, which agrees with the haversine on the only
pair of coordinates this trip uses: identical fixes at the origin are 0 m
apart.) -/
theorem stationary_run_never_reaches_cap :
    (runSamples (fun _ _ => 0) 0 stationaryState
        (List.replicate 501 (0, 0, (⟨0, 0⟩ : Coord)))).points.length ≠ MAX_POINTS := by
  have hfix : runSamples (fun _ _ => 0) 0 stationaryState
      (List.replicate 501 (0, 0, (⟨0, 0⟩ : Coord))) = stationaryState := by
    have := foldl_fix
      (fun st (x : ℚ × ℚ × Coord) =>
        meterReducer (fun _ _ => 0) 0 st (.LOCATION_UPDATE ⟨x.2.2, some x.2.1, some x.1⟩))
      stationaryState (0, 0, (⟨0, 0⟩ : Coord)) stationary_step_fix 501
    exact this
  rw [hfix]
  simp [stationaryState, initialState, MAX_POINTS]

/-- C8 (amended): the stored polyline never exceeds `MAX_POINTS = 500`:
every action preserves the cap, hydrating a persisted snapshot enforces
the same cap unconditionally, and a location update only ever discards
points from the front (oldest first) of the appended sequence.  For a run
of `N` location updates from a running state in which every update is
actually stored (each fix lies more than 5 m from the last stored point
— the reducer's thinning rule), the resulting length is exactly
`min (initial + N) MAX_POINTS`, hence exactly `MAX_POINTS` for
`N > MAX_POINTS`; without the all-stored condition a long run can leave
fewer points (see the stationary counterexample). -/
theorem points_cap_and_thinning (dist : Coord → Coord → ℚ) (now : ℚ) :
    (∀ (s : MeterState) (a : MeterAction), s.points.length ≤ MAX_POINTS →
      (meterReducer dist now s a).points.length ≤ MAX_POINTS) ∧
    (∀ (s payload : MeterState),
      (meterReducer dist now s (.HYDRATE payload)).points.length ≤ MAX_POINTS) ∧
    (∀ (s : MeterState) (loc : LocationObject),
      (∃ k, (meterReducer dist now s (.LOCATION_UPDATE loc)).points
          = (s.points ++ [loc.coords]).drop k) ∨
        ∃ k, (meterReducer dist now s (.LOCATION_UPDATE loc)).points = s.points.drop k) ∧
    (∀ (samples : List (ℚ × ℚ × Coord)) (s : MeterState) (c0 : Coord),
      s.status = .running →
      s.points.getLast? = some c0 →
      s.points.length ≤ MAX_POINTS →
      List.Chain (fun a b => dist a b > 5) c0 (samples.map (fun x => x.2.2)) →
      (runSamples dist now s samples).points.length
        = min (s.points.length + samples.length) MAX_POINTS) := by
  refine ⟨points_cap_step dist now, ?_, ?_, ?_⟩
  · intro s payload
    simp only [meterReducer]
    split_ifs with hlen
    · simp only [List.length_drop]
      omega
    · exact le_of_not_lt hlen
  · intro s loc
    by_cases hrun : s.status = .running
    · have hred : meterReducer dist now s (.LOCATION_UPDATE loc)
          = locationUpdate dist now s loc := rfl
      rw [hred, locationUpdate_points dist now s loc hrun]
      exact thinAndCap_suffix dist s.points loc.coords
    · refine Or.inr ⟨0, ?_⟩
      simp [meterReducer, locationUpdate, hrun]
  · intro samples s c0 hrun hlast hle hchain
    exact stored_run_length dist now samples s c0 hrun hlast hle hchain

theorem points_cap_and_thinning_witness :
    stationaryState.points.length ≤ MAX_POINTS ∧
    (meterReducer (fun _ _ => 10) 0 stationaryState .PAUSE).points.length ≤ MAX_POINTS ∧
    stationaryState.points.getLast? = some ⟨0, 0⟩ ∧
    (runSamples (fun _ _ => 10) 0 stationaryState [(1, 0, ⟨1, 1⟩), (2, 0, ⟨2, 2⟩)]).points.length
      = min (stationaryState.points.length + 2) MAX_POINTS :=
  ⟨by norm_num [stationaryState, initialState, MAX_POINTS],
    (points_cap_and_thinning (fun _ _ => 10) 0).1 stationaryState .PAUSE
      (by norm_num [stationaryState, initialState, MAX_POINTS]),
    rfl,
    (points_cap_and_thinning (fun _ _ => 10) 0).2.2.2
      [(1, 0, ⟨1, 1⟩), (2, 0, ⟨2, 2⟩)] stationaryState ⟨0, 0⟩ rfl rfl
      (by norm_num [stationaryState, initialState, MAX_POINTS])
      (by constructor
          · norm_num
          · constructor
            · norm_num
            · exact List.Chain.nil)⟩

/-! ## Claim C9 — live fare vs settlement calculator -/

theorem minimum_fare_case (f0 m0 : ℚ) (hm : 0 ≤ m0) :
    (if m0 ≠ 0 then max m0 f0 else f0) = (if m0 > 0 ∧ f0 < m0 then m0 else f0) := by
  by_cases h0 : m0 = 0
  · simp [h0]
  · have hpos : 0 < m0 := lt_of_le_of_ne hm (Ne.symm h0)
    simp only [ne_eq, h0, not_false_iff, if_true, hpos, true_and]
    rcases lt_or_le f0 m0 with h | h
    · rw [if_pos h, max_eq_left h.le]
    · rw [if_neg (not_lt.mpr h), max_eq_right h]

theorem surge_factor_case (f1 : ℚ) (hf : 0 ≤ f1) (se : Bool) (sm : Option ℚ) :
    (if se = true ∧ sm.getD 0 ≠ 0 ∧ sm.getD 0 > 1 then f1 * sm.getD 0 else f1)
      = max (f1 * (if se = true ∧ safeAmount sm 0 > 0
          then max (safeAmount sm 0) 1 else 1)) 0 := by
  set M := (if se = true ∧ safeAmount sm 0 > 0 then max (safeAmount sm 0) 1 else 1) with hM
  have hM1 : (1 : ℚ) ≤ M := by
    rw [hM]
    split_ifs
    · exact le_max_right _ _
    · exact le_rfl
  have hnn : 0 ≤ f1 * M := mul_nonneg hf (le_trans zero_le_one hM1)
  rw [max_eq_left hnn]
  cases se
  · simp [hM]
  · cases sm with
    | none => simp [hM, safeAmount]
    | some v =>
      by_cases hv : v > 1
      · have hvnn : ¬ v < 0 := by linarith
        have hsv : safeAmount (some v) 0 = v := by simp [safeAmount, hvnn]
        have hvne : v ≠ 0 := by linarith
        have hvpos : (0 : ℚ) < v := by linarith
        have hv1 : (1 : ℚ) ≤ v := by linarith
        simp [hM, hv, hvne, hsv, hvpos, max_eq_left hv1]
      · rcases lt_or_le v 0 with hneg | hnn0
        · have hsv : safeAmount (some v) 0 = 0 := by simp [safeAmount, hneg]
          simp [hM, hv, hsv]
        · have hsv : safeAmount (some v) 0 = v := by simp [safeAmount, not_lt.mpr hnn0]
          by_cases hv0 : v = 0
          · simp [hM, hv, hv0, safeAmount]
          · have hvpos : 0 < v := lt_of_le_of_ne hnn0 (Ne.symm hv0)
            have hmax : max v 1 = 1 := max_eq_right (le_of_not_lt hv)
            simp [hM, hv, hsv, hvpos, hmax, hv0]

/-- A meter configuration charging only per mile. -/
def meterCfgPerMile : MeterConfig :=
  { farePerMile := 1
    waitTimePerMinute := 0
    baseFare := none
    minimumFare := none
    waitTriggerSpeedMph := none
    idleGracePeriodSeconds := none
    surgeEnabled := none
    surgeMultiplier := none }

/-- A running meter state holding a (hydratable) negative distance of
exactly minus one mile. -/
def negDistanceState : MeterState :=
  { initialState with
      status := .running
      config := some meterCfgPerMile
      distanceMeters := -(1609344 / 1000 : ℚ) }

/-- C9 counterexample: for a meter state whose `distanceMeters` is
negative (as a hydrated corrupt snapshot can produce), the hook's live
fare and `computeFareBreakdown` disagree even with one passenger, no
other fees and no rounding mode: the live fare multiplies the raw
(negative) distance while the calculator clamps distance and the final
total to ≥ 0. -/
theorem live_fare_mismatch_on_negative_distance :
    (meterTotals negDistanceState).fare
      ≠ (computeFareBreakdown (toFareConfig meterCfgPerMile)
          (meterTotals negDistanceState).distanceMiles
          (meterTotals negDistanceState).waitMinutes 1 [] none).total := by
  norm_num [meterTotals, negDistanceState, initialState, meterCfgPerMile, toFareConfig,
    computeFareBreakdown, applyMeterRounding, safeAmount, clampPassengers, metersToMiles,
    secondsToMinutes]

/-- C9 (amended): for every meter state with a config and no flat rate,
restricted to nonnegative accumulated `distanceMeters`/`waitSeconds` and
nonnegative configured rates (which all states reached without a corrupt
hydration, under configs produced by `buildMeterConfig`, satisfy), the
hook's live fare equals the total of `computeFareBreakdown` applied to
the same fare parameters, distance and wait, with `passengerCount = 1`,
no other fees and no `meterRoundingMode` — on that domain the live
display value and the settlement calculator agree exactly. -/
theorem live_fare_agrees_with_settlement
    (s : MeterState) (cfg : MeterConfig)
    (hcfg : s.config = some cfg)
    (hd : 0 ≤ s.distanceMeters) (hw : 0 ≤ s.waitSeconds)
    (hb : 0 ≤ cfg.baseFare.getD 0) (hp : 0 ≤ cfg.farePerMile)
    (hq : 0 ≤ cfg.waitTimePerMinute) (hm : 0 ≤ cfg.minimumFare.getD 0) :
    (meterTotals s).fare
      = (computeFareBreakdown (toFareConfig cfg) (meterTotals s).distanceMiles
          (meterTotals s).waitMinutes 1 [] none).total := by
  have hd' : 0 ≤ metersToMiles s.distanceMeters := by
    rw [metersToMiles]
    exact div_nonneg hd (by norm_num)
  have hw' : 0 ≤ secondsToMinutes s.waitSeconds := by
    rw [secondsToMinutes]
    exact div_nonneg hw (by norm_num)
  have hdm : (meterTotals s).distanceMiles = metersToMiles s.distanceMeters := by
    simp [meterTotals, hcfg]
  have hwm : (meterTotals s).waitMinutes = secondsToMinutes s.waitSeconds := by
    simp [meterTotals, hcfg]
  rw [hdm, hwm]
  have hpm : safeAmount (some cfg.farePerMile) 0 = cfg.farePerMile := by
    simp [safeAmount, not_lt.mpr hp]
  have hwr : safeAmount (some cfg.waitTimePerMinute) 0 = cfg.waitTimePerMinute := by
    simp [safeAmount, not_lt.mpr hq]
  have hbfe : safeAmount cfg.baseFare 0 = cfg.baseFare.getD 0 := by
    cases hb0 : cfg.baseFare with
    | none => simp [safeAmount]
    | some x =>
      have hx : 0 ≤ x := by rw [hb0] at hb; simpa using hb
      simp [safeAmount, not_lt.mpr hx]
  have hmfe : safeAmount cfg.minimumFare 0 = cfg.minimumFare.getD 0 := by
    cases hm0 : cfg.minimumFare with
    | none => simp [safeAmount]
    | some x =>
      have hx : 0 ≤ x := by rw [hm0] at hm; simpa using hm
      simp [safeAmount, not_lt.mpr hx]
  have hF0 : 0 ≤ cfg.baseFare.getD 0 + metersToMiles s.distanceMeters * cfg.farePerMile
      + secondsToMinutes s.waitSeconds * cfg.waitTimePerMinute := by
    have h1 := mul_nonneg hd' hp
    have h2 := mul_nonneg hw' hq
    linarith
  have hcalc : (computeFareBreakdown (toFareConfig cfg) (metersToMiles s.distanceMeters)
        (secondsToMinutes s.waitSeconds) 1 [] none).total
      = max ((if cfg.minimumFare.getD 0 > 0 ∧
              cfg.baseFare.getD 0 + metersToMiles s.distanceMeters * cfg.farePerMile
                + secondsToMinutes s.waitSeconds * cfg.waitTimePerMinute
                < cfg.minimumFare.getD 0
            then cfg.minimumFare.getD 0
            else cfg.baseFare.getD 0 + metersToMiles s.distanceMeters * cfg.farePerMile
              + secondsToMinutes s.waitSeconds * cfg.waitTimePerMinute)
          * (if cfg.surgeEnabled.getD false = true ∧ safeAmount cfg.surgeMultiplier 0 > 0
            then max (safeAmount cfg.surgeMultiplier 0) 1 else 1)) 0 := by
    simp [computeFareBreakdown, toFareConfig, applyMeterRounding, hpm, hwr, hbfe, hmfe,
      clampPassengers, max_eq_left hd', max_eq_left hw']
  rw [hcalc]
  have hf1 : 0 ≤ (if cfg.minimumFare.getD 0 > 0 ∧
        cfg.baseFare.getD 0 + metersToMiles s.distanceMeters * cfg.farePerMile
          + secondsToMinutes s.waitSeconds * cfg.waitTimePerMinute < cfg.minimumFare.getD 0
      then cfg.minimumFare.getD 0
      else cfg.baseFare.getD 0 + metersToMiles s.distanceMeters * cfg.farePerMile
        + secondsToMinutes s.waitSeconds * cfg.waitTimePerMinute) := by
    split_ifs
    · exact hm
    · exact hF0
  have hhook : (meterTotals s).fare
      = (if cfg.surgeEnabled.getD false = true ∧ cfg.surgeMultiplier.getD 0 ≠ 0
            ∧ cfg.surgeMultiplier.getD 0 > 1 then
          (if cfg.minimumFare.getD 0 ≠ 0 then
            max (cfg.minimumFare.getD 0)
              (cfg.baseFare.getD 0 + metersToMiles s.distanceMeters * cfg.farePerMile
                + secondsToMinutes s.waitSeconds * cfg.waitTimePerMinute)
          else cfg.baseFare.getD 0 + metersToMiles s.distanceMeters * cfg.farePerMile
            + secondsToMinutes s.waitSeconds * cfg.waitTimePerMinute)
            * cfg.surgeMultiplier.getD 0
        else
          (if cfg.minimumFare.getD 0 ≠ 0 then
            max (cfg.minimumFare.getD 0)
              (cfg.baseFare.getD 0 + metersToMiles s.distanceMeters * cfg.farePerMile
                + secondsToMinutes s.waitSeconds * cfg.waitTimePerMinute)
          else cfg.baseFare.getD 0 + metersToMiles s.distanceMeters * cfg.farePerMile
            + secondsToMinutes s.waitSeconds * cfg.waitTimePerMinute)) := by
    simp [meterTotals, hcfg]
  rw [hhook, minimum_fare_case _ _ hm,
    surge_factor_case _ hf1 (cfg.surgeEnabled.getD false) cfg.surgeMultiplier]

theorem live_fare_agrees_with_settlement_witness :
    (0 : ℚ) ≤ runningSample.distanceMeters ∧
    (meterTotals runningSample).fare
      = (computeFareBreakdown (toFareConfig meterCfgGrace45)
          (meterTotals runningSample).distanceMiles
          (meterTotals runningSample).waitMinutes 1 [] none).total :=
  ⟨le_refl 0,
    live_fare_agrees_with_settlement runningSample meterCfgGrace45 rfl
      le_rfl le_rfl (by norm_num [meterCfgGrace45, meterCfgTrivial])
      (by norm_num [meterCfgGrace45, meterCfgTrivial])
      (by norm_num [meterCfgGrace45, meterCfgTrivial])
      (by norm_num [meterCfgGrace45, meterCfgTrivial])⟩

/-! ## Claim C1 — meter invariants -/

theorem additionalWait_le_delta (anc g tl t : ℚ) :
    max 0 (max 0 (max 0 ((t - anc) / 1000) - g) - max 0 (max 0 ((tl - anc) / 1000) - g))
      ≤ max 0 ((t - tl) / 1000) := by
  have h1 : max 0 ((t - anc) / 1000) - max 0 ((tl - anc) / 1000)
      ≤ max 0 ((t - tl) / 1000) := by
    have h := max0_sub_max0_le ((t - anc) / 1000) ((tl - anc) / 1000)
    have heq : (t - anc) / 1000 - (tl - anc) / 1000 = (t - tl) / 1000 := by ring
    rwa [heq] at h
  have h2 : max 0 (max 0 ((t - anc) / 1000) - g) - max 0 (max 0 ((tl - anc) / 1000) - g)
      ≤ max 0 (max 0 ((t - anc) / 1000) - max 0 ((tl - anc) / 1000)) := by
    have h := max0_sub_max0_le (max 0 ((t - anc) / 1000) - g)
      (max 0 ((tl - anc) / 1000) - g)
    have heq : max 0 ((t - anc) / 1000) - g - (max 0 ((tl - anc) / 1000) - g)
        = max 0 ((t - anc) / 1000) - max 0 ((tl - anc) / 1000) := by ring
    rwa [heq] at h
  have h3 : max 0 (max 0 ((t - anc) / 1000) - max 0 ((tl - anc) / 1000))
      ≤ max 0 ((t - tl) / 1000) :=
    max_le (le_max_left 0 _) h1
  calc max 0 (max 0 (max 0 ((t - anc) / 1000) - g) - max 0 (max 0 ((tl - anc) / 1000) - g))
      ≤ max 0 (max 0 (max 0 ((t - anc) / 1000) - max 0 ((tl - anc) / 1000))) := max0_mono h2
    _ = max 0 (max 0 ((t - anc) / 1000) - max 0 ((tl - anc) / 1000)) :=
        max_eq_right (le_max_left 0 _)
    _ ≤ max 0 ((t - tl) / 1000) := h3

theorem waitAndAnchorUpd_bounds (w : ℚ) (anc : Option ℚ) (b : Bool) (tl t g : ℚ) :
    w ≤ (waitAndAnchorUpd w anc b tl t g).1 ∧
    (waitAndAnchorUpd w anc b tl t g).1 ≤ w + max 0 ((t - tl) / 1000) := by
  have hd0 : (0 : ℚ) ≤ max 0 ((t - tl) / 1000) := le_max_left 0 _
  cases b with
  | false =>
    have hW : (waitAndAnchorUpd w anc false tl t g).1 = w := by
      simp [waitAndAnchorUpd]
    rw [hW]
    exact ⟨le_rfl, by linarith⟩
  | true =>
    cases anc with
    | none =>
      have hW : (waitAndAnchorUpd w none true tl t g).1 = w := rfl
      rw [hW]
      exact ⟨le_rfl, by linarith⟩
    | some a =>
      have hle := additionalWait_le_delta a g tl t
      have hge : (0 : ℚ) ≤ max 0 (max 0 (max 0 ((t - a) / 1000) - g)
          - max 0 (max 0 ((tl - a) / 1000) - g)) := le_max_left 0 _
      have hW : (waitAndAnchorUpd w (some a) true tl t g).1
          = w + max 0 (max 0 (max 0 ((t - a) / 1000) - g)
              - max 0 (max 0 ((tl - a) / 1000) - g)) := rfl
      rw [hW]
      exact ⟨by linarith, by linarith⟩

theorem locationUpdate_fields (dist : Coord → Coord → ℚ) (n : ℚ) (s : MeterState)
    (loc : LocationObject) (hrun : s.status = .running) :
    (locationUpdate dist n s loc).status = .running ∧
    (locationUpdate dist n s loc).startedAt = s.startedAt ∧
    (locationUpdate dist n s loc).lastTimestamp = some (loc.timestamp.getD n) ∧
    (locationUpdate dist n s loc).elapsedSeconds
      = s.elapsedSeconds
        + max 0 ((loc.timestamp.getD n - s.lastTimestamp.getD (loc.timestamp.getD n)) / 1000) ∧
    s.distanceMeters ≤ (locationUpdate dist n s loc).distanceMeters ∧
    s.waitSeconds ≤ (locationUpdate dist n s loc).waitSeconds ∧
    (locationUpdate dist n s loc).waitSeconds
      ≤ s.waitSeconds
        + max 0 ((loc.timestamp.getD n - s.lastTimestamp.getD (loc.timestamp.getD n)) / 1000) := by
  refine ⟨by simp [locationUpdate, hrun], by simp [locationUpdate, hrun],
    by simp [locationUpdate, hrun], by simp [locationUpdate, hrun], ?_, ?_, ?_⟩
  · rcases hl : s.lastLocation with _ | l
    · simp [locationUpdate, hrun, hl]
    · simp only [locationUpdate, hrun, if_true, hl]
      split_ifs with h1 <;> simp
      all_goals linarith
  · simp only [locationUpdate, hrun, if_true]
    exact (waitAndAnchorUpd_bounds _ _ _ _ _ _).1
  · simp only [locationUpdate, hrun, if_true]
    exact (waitAndAnchorUpd_bounds _ _ _ _ _ _).2

/-- The inductive invariant of the meter: nonnegative distance and wait,
wait bounded by elapsed time, and — while running or paused — elapsed
time bounded by the time span from `startedAt` to `lastTimestamp`. -/
def MeterInv (s : MeterState) : Prop :=
  0 ≤ s.distanceMeters ∧ 0 ≤ s.waitSeconds ∧ s.waitSeconds ≤ s.elapsedSeconds ∧
  ((s.status = .running ∨ s.status = .paused) →
    ∃ a tl, s.startedAt = some a ∧ s.lastTimestamp = some tl ∧ a ≤ tl ∧
      s.elapsedSeconds ≤ (tl - a) / 1000)

/-- `lastTimestamp`, when set, is at most `t`. -/
def TimeBound (s : MeterState) (t : ℚ) : Prop :=
  ∀ tl, s.lastTimestamp = some tl → tl ≤ t

theorem div1000_mono {x y : ℚ} (h : x ≤ y) : x / 1000 ≤ y / 1000 := by
  apply div_le_div_of_nonneg_right h
  norm_num

theorem meter_step_inv (dist : Coord → Coord → ℚ) (n : ℚ) (s : MeterState)
    (a : MeterAction) (t : ℚ) (hInv : MeterInv s) (hB : TimeBound s t)
    (hle : t ≤ evTime (n, a)) (hCore : CoreAction a) :
    MeterInv (meterReducer dist n s a) ∧ TimeBound (meterReducer dist n s a) (evTime (n, a)) := by
  obtain ⟨hdist, hwait0, hwe, hrp⟩ := hInv
  cases a with
  | START t0 loc cfg =>
    constructor
    · refine ⟨by simp [meterReducer], by simp [meterReducer], by simp [meterReducer], ?_⟩
      intro _
      refine ⟨t0, t0, by simp [meterReducer], by simp [meterReducer], le_rfl, ?_⟩
      simp [meterReducer]
    · intro tl htl
      simp only [evTime]
      simp [meterReducer] at htl
      exact le_of_eq htl.symm
  | LOCATION_UPDATE loc =>
    by_cases hrun : s.status = .running
    · obtain ⟨a0, tl, hsa, hlt, hatl, hel⟩ := hrp (Or.inl hrun)
      obtain ⟨f1, f2, f3, f4, f5, f6, f7⟩ := locationUpdate_fields dist n s loc hrun
      have hred : meterReducer dist n s (.LOCATION_UPDATE loc)
          = locationUpdate dist n s loc := rfl
      have hte : evTime (n, .LOCATION_UPDATE loc) = loc.timestamp.getD n := rfl
      have htlte : tl ≤ loc.timestamp.getD n := le_trans (hB tl hlt) (by rwa [hte] at hle)
      have hgd : s.lastTimestamp.getD (loc.timestamp.getD n) = tl := by
        rw [hlt]
        rfl
      have hdelta : max 0 ((loc.timestamp.getD n
            - s.lastTimestamp.getD (loc.timestamp.getD n)) / 1000)
          = (loc.timestamp.getD n - tl) / 1000 := by
        rw [hgd]
        exact max_eq_right (div_nonneg (by linarith) (by norm_num))
      have hdelta0 : 0 ≤ (loc.timestamp.getD n - tl) / 1000 :=
        div_nonneg (by linarith) (by norm_num)
      rw [hred]
      constructor
      · refine ⟨le_trans hdist f5, le_trans hwait0 f6, ?_, ?_⟩
        · rw [f4, hdelta]
          rw [hdelta] at f7
          linarith
        · intro _
          refine ⟨a0, loc.timestamp.getD n, by rw [f2]; exact hsa, f3,
            le_trans hatl htlte, ?_⟩
          rw [f4, hdelta]
          have : (tl - a0) / 1000 + (loc.timestamp.getD n - tl) / 1000
              = (loc.timestamp.getD n - a0) / 1000 := by ring
          linarith
      · intro tl' htl'
        rw [f3] at htl'
        injection htl' with h
        rw [hte, ← h]
    · have hred : meterReducer dist n s (.LOCATION_UPDATE loc) = s := by
        simp [meterReducer, locationUpdate, hrun]
      rw [hred]
      exact ⟨⟨hdist, hwait0, hwe, hrp⟩, fun tl htl => le_trans (hB tl htl) hle⟩
  | PAUSE =>
    have hte : evTime (n, MeterAction.PAUSE) = n := rfl
    rw [hte] at hle
    by_cases hrun : s.status = .running
    · obtain ⟨a0, tl, hsa, hlt, hatl, hel⟩ := hrp (Or.inl hrun)
      have htln : tl ≤ n := le_trans (hB tl hlt) hle
      have hred : meterReducer dist n s .PAUSE
          = { s with status := .paused, lastTimestamp := some n, idleAnchor := none } := by
        simp [meterReducer, hrun]
      rw [hred]
      constructor
      · refine ⟨hdist, hwait0, hwe, ?_⟩
        intro _
        exact ⟨a0, n, hsa, rfl, le_trans hatl htln,
          le_trans hel (div1000_mono (by linarith))⟩
      · intro tl' htl'
        injection htl' with h
        rw [hte, ← h]
    · have hred : meterReducer dist n s .PAUSE = s := by
        simp [meterReducer, hrun]
      rw [hred]
      exact ⟨⟨hdist, hwait0, hwe, hrp⟩, fun tl htl => le_trans (hB tl htl) hle⟩
  | RESUME t0 =>
    have hte : evTime (n, MeterAction.RESUME t0) = t0 := rfl
    rw [hte] at hle
    by_cases hp : s.status = .paused
    · obtain ⟨a0, tl, hsa, hlt, hatl, hel⟩ := hrp (Or.inr hp)
      have htlt : tl ≤ t0 := le_trans (hB tl hlt) hle
      have hred : meterReducer dist n s (.RESUME t0)
          = { s with status := .running, lastTimestamp := some t0 } := by
        simp [meterReducer, hp]
      rw [hred]
      constructor
      · refine ⟨hdist, hwait0, hwe, ?_⟩
        intro _
        exact ⟨a0, t0, hsa, rfl, le_trans hatl htlt,
          le_trans hel (div1000_mono (by linarith))⟩
      · intro tl' htl'
        injection htl' with h
        rw [hte, ← h]
    · have hred : meterReducer dist n s (.RESUME t0) = s := by
        simp [meterReducer, hp]
      rw [hred]
      exact ⟨⟨hdist, hwait0, hwe, hrp⟩, fun tl htl => le_trans (hB tl htl) hle⟩
  | STOP t0 =>
    have hte : evTime (n, MeterAction.STOP t0) = t0 := rfl
    rw [hte] at hle
    by_cases hs : s.status = .idle ∨ s.status = .completed
    · have hred : meterReducer dist n s (.STOP t0) = s := by
        simp only [meterReducer, hs, if_true]
      rw [hred]
      exact ⟨⟨hdist, hwait0, hwe, hrp⟩, fun tl htl => le_trans (hB tl htl) hle⟩
    · have hrp' : s.status = .running ∨ s.status = .paused := by
        cases hstat : s.status <;> simp [hstat] at hs ⊢
      obtain ⟨a0, tl, hsa, hlt, hatl, hel⟩ := hrp hrp'
      have htlt : tl ≤ t0 := le_trans (hB tl hlt) hle
      have hred : meterReducer dist n s (.STOP t0)
          = { s with
                status := MeterStatus.completed
                elapsedSeconds := max 0 ((t0 - s.startedAt.getD t0) / 1000)
                lastTimestamp := some t0
                idleAnchor := none } := by
        simp only [meterReducer, hs, if_false]
      have hgd : s.startedAt.getD t0 = a0 := by
        rw [hsa]
        rfl
      rw [hred]
      constructor
      · refine ⟨hdist, hwait0, ?_, ?_⟩
        · have h1 : (tl - a0) / 1000 ≤ (t0 - a0) / 1000 := div1000_mono (by linarith)
          have h2 : (t0 - a0) / 1000 ≤ max 0 ((t0 - s.startedAt.getD t0) / 1000) := by
            rw [hgd]
            exact le_max_right 0 _
          simp only []
          linarith
        · intro hcontra
          rcases hcontra with h | h <;> simp at h
      · intro tl' htl'
        injection htl' with h
        rw [hte, ← h]
  | RESET =>
    constructor
    · refine ⟨le_rfl, le_rfl, le_rfl, ?_⟩
      intro h
      rcases h with h | h <;> simp [meterReducer, initialState] at h
    · intro tl htl
      simp [meterReducer, initialState] at htl
  | HYDRATE payload => exact absurd hCore (by simp [CoreAction])
  | SET_ERROR e => exact absurd hCore (by simp [CoreAction])

theorem meter_run_inv (dist : Coord → Coord → ℚ) (events : List (ℚ × MeterAction)) :
    ∀ (s : MeterState) (t : ℚ), MeterInv s → TimeBound s t →
    List.Chain (· ≤ ·) t (events.map evTime) →
    (∀ e ∈ events, CoreAction e.2) →
    MeterInv (runMeter dist s events) := by
  induction events with
  | nil =>
    intro s t hInv _ _ _
    simpa [runMeter] using hInv
  | cons e es ih =>
    intro s t hInv hB hchain hcore
    rcases hchain with _ | ⟨hte, hchain'⟩
    have hstep := meter_step_inv dist e.1 s e.2 t hInv hB hte (hcore e (by simp))
    have hrunfold : runMeter dist s (e :: es)
        = runMeter dist (meterReducer dist e.1 s e.2) es := by
      simp [runMeter]
    rw [hrunfold]
    exact ih _ (evTime e) hstep.1 hstep.2 hchain' (fun z hz => hcore z (by simp [hz]))

theorem meter_step_distance (dist : Coord → Coord → ℚ) (n : ℚ) (s : MeterState)
    (a : MeterAction) (hCore : CoreAction a) (h : 0 ≤ s.distanceMeters) :
    0 ≤ (meterReducer dist n s a).distanceMeters := by
  cases a with
  | START t0 loc cfg => simp [meterReducer]
  | LOCATION_UPDATE loc =>
    by_cases hrun : s.status = .running
    · exact le_trans h (locationUpdate_fields dist n s loc hrun).2.2.2.2.1
    · simpa [meterReducer, locationUpdate, hrun] using h
  | PAUSE => by_cases hrun : s.status = .running <;> simpa [meterReducer, hrun] using h
  | RESUME t0 => by_cases hp : s.status = .paused <;> simpa [meterReducer, hp] using h
  | STOP t0 =>
    by_cases hs : s.status = .idle ∨ s.status = .completed <;>
      simpa [meterReducer, hs] using h
  | RESET => simp [meterReducer, initialState]
  | HYDRATE p => exact absurd hCore (by simp [CoreAction])
  | SET_ERROR e => exact absurd hCore (by simp [CoreAction])

theorem meter_run_distance (dist : Coord → Coord → ℚ) (events : List (ℚ × MeterAction)) :
    ∀ s : MeterState, 0 ≤ s.distanceMeters → (∀ e ∈ events, CoreAction e.2) →
    0 ≤ (runMeter dist s events).distanceMeters := by
  induction events with
  | nil =>
    intro s h _
    simpa [runMeter] using h
  | cons e es ih =>
    intro s h hcore
    have hrunfold : runMeter dist s (e :: es)
        = runMeter dist (meterReducer dist e.1 s e.2) es := by
      simp [runMeter]
    rw [hrunfold]
    exact ih _ (meter_step_distance dist e.1 s e.2 (hcore e (by simp)) h)
      (fun z hz => hcore z (by simp [hz]))

/-- The out-of-order event sequence refuting the unconditional invariant:
two stationary samples a long (idle) time after the start, then a STOP
whose timestamp is far in their past.  STOP recomputes `elapsedSeconds`
from the stop timestamp and `startedAt`, which undercuts the billed
`waitSeconds`. -/
def outOfOrderEvents : List (ℚ × MeterAction) :=
  [(0, .START 0 none meterCfgTrivial),
   (0, .LOCATION_UPDATE ⟨⟨0, 0⟩, some 0, some 1000000⟩),
   (0, .LOCATION_UPDATE ⟨⟨0, 0⟩, some 0, some 2000000⟩),
   (0, .STOP 100000)]

/-- C1 counterexample: applying START, two idle location updates at
t = 1,000,000 ms and t = 2,000,000 ms, and then STOP at t = 100,000 ms to
the initial state yields `waitSeconds = 955 > 100 = elapsedSeconds` — the
claimed invariant `waitSeconds ≤ elapsedSeconds` fails after STOP
recomputes `elapsedSeconds` from an out-of-order stop timestamp. -/
theorem stop_recompute_breaks_wait_bound :
    ¬ ((runMeter (fun _ _ => 0) initialState outOfOrderEvents).waitSeconds
        ≤ (runMeter (fun _ _ => 0) initialState outOfOrderEvents).elapsedSeconds) := by
  have hc : ¬ (MeterStatus.running = MeterStatus.idle
      ∨ MeterStatus.running = MeterStatus.completed) := by
    simp
  norm_num [outOfOrderEvents, runMeter, meterReducer, locationUpdate, initialState,
    meterCfgTrivial, waitThresholdOf, graceSecondsOf, mphToMetersPerSecond,
    waitAndAnchorUpd, thinAndCap, MAX_POINTS, max_def, hc]

/-- C1 (amended): for every sequence of the six meter events (START,
LOCATION_UPDATE, PAUSE, RESUME, STOP, RESET) applied by `meterReducer`
from the initial state, `distanceMeters ≥ 0` always holds; and whenever
the events' driving timestamps are nondecreasing (in particular the STOP
timestamp is not earlier than the samples before it),
`waitSeconds ≤ elapsedSeconds` also holds, including after STOP
recomputes `elapsedSeconds` from the stop timestamp and `startedAt`.
With an out-of-order STOP timestamp the wait bound can fail (see the
counterexample). -/
theorem meter_invariants_hold (dist : Coord → Coord → ℚ)
    (events : List (ℚ × MeterAction))
    (hcore : ∀ e ∈ events, CoreAction e.2) :
    0 ≤ (runMeter dist initialState events).distanceMeters ∧
    (List.Chain' (· ≤ ·) (events.map evTime) →
      (runMeter dist initialState events).waitSeconds
        ≤ (runMeter dist initialState events).elapsedSeconds) := by
  constructor
  · exact meter_run_distance dist events initialState le_rfl hcore
  · intro hchain
    cases events with
    | nil => simp [runMeter, initialState]
    | cons e es =>
      have hch : List.Chain (· ≤ ·) (evTime e) (List.map evTime es) := hchain
      have hInv := meter_run_inv dist (e :: es) initialState (evTime e)
        ⟨le_rfl, le_rfl, le_rfl, by
          intro h
          rcases h with h | h <;> simp [initialState] at h⟩
        (by intro tl htl; simp [initialState] at htl)
        (by simpa using List.Chain.cons le_rfl hch) hcore
      exact hInv.2.2.1

theorem meter_invariants_hold_witness :
    0 ≤ (runMeter (fun _ _ => 0) initialState
        [(0, .START 0 none meterCfgTrivial), (0, .STOP 5000)]).distanceMeters ∧
    (runMeter (fun _ _ => 0) initialState
        [(0, .START 0 none meterCfgTrivial), (0, .STOP 5000)]).waitSeconds
      ≤ (runMeter (fun _ _ => 0) initialState
          [(0, .START 0 none meterCfgTrivial), (0, .STOP 5000)]).elapsedSeconds :=
  ⟨(meter_invariants_hold (fun _ _ => 0)
      [(0, .START 0 none meterCfgTrivial), (0, .STOP 5000)]
      (by
        intro e he
        simp only [List.mem_cons, List.not_mem_nil, or_false, List.mem_singleton] at he
        rcases he with he | he <;> subst he <;> trivial)).1,
    (meter_invariants_hold (fun _ _ => 0)
      [(0, .START 0 none meterCfgTrivial), (0, .STOP 5000)]
      (by
        intro e he
        simp only [List.mem_cons, List.not_mem_nil, or_false, List.mem_singleton] at he
        rcases he with he | he <;> subst he <;> trivial)).2
      (by norm_num [evTime, List.Chain'])⟩

end DriverApp
